import Mathlib

/-!
Shallow embedding of the flow-reconstruction engine and the traffic-graph
anomaly engine of the Network-Intrusion-Detection-System repository.

Sources embedded:
* `nids-suite/microservices/packet_capture/src/flow_builder.py`
  (`FlowKey`, `Flow`, `FlowBuilder`)
* `nids-suite/microservices/packet_capture/src/feature_extraction.py`
  (`FeatureExtractor.extract_flow_features`)
* `dynamic-nids-project/backend/graph_manager.py` (`GraphManager`)
* `dynamic-nids-project/backend/graph_analyzer.py` (`GraphAnalyzer`)
* `dynamic-nids-project/backend/simple_graph_analyzer.py`
  (`SimpleGraphAnalyzer._detect_scanning_behavior`)

Python float timestamps are modelled by `ℤ` (a discrete clock preserving
the only operations the source applies to timestamps: subtraction and
order comparison); other float quantities are modelled by `ℚ`; Python
dicts by insertion-ordered
association lists with unique keys; a raised exception is modelled by
`Except`.  Logging, uuid generation and wall-clock reads are side effects
with no influence on the verified state and are not modelled; where the
source reads the wall clock (`time.time()`) the model takes the clock value
as an explicit argument `now`.
-/

namespace NIDS

/-- Parsed transport layer of a captured packet (the fields of the scapy
layers that `flow_builder.py` reads). -/
inductive PktLayer where
  | tcp (sport dport flags : Nat)
  | udp (sport dport : Nat)
  | icmp
  | other (proto : Nat)
deriving DecidableEq

/-- A captured packet, reduced to the fields the flow builder reads:
presence of an IP layer, the two addresses, the transport layer,
`len(packet)` and `packet.time`. -/
structure Packet where
  hasIP : Bool
  src : String
  dst : String
  layer : PktLayer
  size : Nat
  time : ℤ
deriving DecidableEq

/-- TCP flag counters of a `Flow` (`Flow.tcp_flags` in the source). -/
structure TcpFlags where
  fin : Nat
  syn : Nat
  rst : Nat
  psh : Nat
  ack : Nat
  urg : Nat
  ece : Nat
  cwr : Nat
deriving DecidableEq

/-- All-zero flag counters (the dict `Flow.__init__` builds). -/
def TcpFlags.zero : TcpFlags := ⟨0, 0, 0, 0, 0, 0, 0, 0⟩

/-- `FlowKey`: the 5-tuple identity of a flow. -/
structure FlowKey where
  src_ip : String
  dst_ip : String
  src_port : Nat
  dst_port : Nat
  protocol : String
deriving DecidableEq

/-- `FlowKey.reversed`: swap source and destination. -/
def FlowKey.reversed (k : FlowKey) : FlowKey :=
  { src_ip := k.dst_ip, dst_ip := k.src_ip,
    src_port := k.dst_port, dst_port := k.src_port, protocol := k.protocol }

/-- `Flow`: mutable per-conversation state.  The uuid field `id` of the
source is an opaque label with no behavioural role and is not modelled. -/
structure Flow where
  key : FlowKey
  bidirectional : Bool
  start_time : Option ℤ
  last_time : Option ℤ
  end_time : Option ℤ
  bytes : Nat
  packets : Nat
  packet_times : List ℤ
  packet_sizes : List Nat
  inter_arrival_times : List ℤ
  tcp_flags : TcpFlags
  state : String
  is_expired : Bool
deriving DecidableEq

/-- `Flow.__init__`. -/
def Flow.mk0 (key : FlowKey) (bidirectional : Bool) : Flow :=
  { key := key, bidirectional := bidirectional,
    start_time := none, last_time := none, end_time := none,
    bytes := 0, packets := 0,
    packet_times := [], packet_sizes := [], inter_arrival_times := [],
    tcp_flags := TcpFlags.zero, state := "new", is_expired := false }

/-- `Flow._update_tcp_state`, transcribed branch for branch (Python
`if flags & m:` tests are nonzero tests). -/
def updateTcpState (state : String) (flags : Nat) : String :=
  if state = "new" then
    if flags &&& 0x02 ≠ 0 then "syn_sent"
    else if flags &&& 0x12 ≠ 0 then "syn_received"
    else state
  else if state = "syn_sent" ∨ state = "syn_received" then
    if flags &&& 0x10 ≠ 0 then "established" else state
  else if state = "established" then
    if flags &&& 0x01 ≠ 0 then "closing"
    else if flags &&& 0x04 ≠ 0 then "reset"
    else state
  else if state = "closing" then
    if flags &&& 0x01 ≠ 0 then "close_wait"
    else if flags &&& 0x04 ≠ 0 then "reset"
    else state
  else if state = "close_wait" then
    if flags &&& 0x10 ≠ 0 then "closed" else state
  else state

/-- One-step increment of the flag counters for a TCP packet
(`Flow.add_packet`, the eight `if flags & m:` blocks). -/
def TcpFlags.bump (tf : TcpFlags) (flags : Nat) : TcpFlags :=
  { fin := tf.fin + (if flags &&& 0x01 ≠ 0 then 1 else 0),
    syn := tf.syn + (if flags &&& 0x02 ≠ 0 then 1 else 0),
    rst := tf.rst + (if flags &&& 0x04 ≠ 0 then 1 else 0),
    psh := tf.psh + (if flags &&& 0x08 ≠ 0 then 1 else 0),
    ack := tf.ack + (if flags &&& 0x10 ≠ 0 then 1 else 0),
    urg := tf.urg + (if flags &&& 0x20 ≠ 0 then 1 else 0),
    ece := tf.ece + (if flags &&& 0x40 ≠ 0 then 1 else 0),
    cwr := tf.cwr + (if flags &&& 0x80 ≠ 0 then 1 else 0) }

/-- `Flow.add_packet`.  A packet without an IP layer returns immediately,
leaving the flow untouched. -/
def Flow.add_packet (f : Flow) (p : Packet) (timestamp : Option ℤ) : Flow :=
  if ¬ p.hasIP then f else
  let size := p.size
  let pkt_time := timestamp.getD p.time
  let f1 :=
    { f with
      start_time := match f.start_time with
        | none => some pkt_time
        | some t => some t,
      inter_arrival_times := match f.last_time with
        | some lt => f.inter_arrival_times ++ [pkt_time - lt]
        | none => f.inter_arrival_times,
      last_time := some pkt_time,
      packets := f.packets + 1,
      bytes := f.bytes + size,
      packet_times := f.packet_times ++ [pkt_time],
      packet_sizes := f.packet_sizes ++ [size] }
  match p.layer with
  | .tcp _ _ flags =>
      { f1 with tcp_flags := f1.tcp_flags.bump flags,
                state := updateTcpState f1.state flags }
  | _ => f1

/-- `Flow.is_inactive`. -/
def Flow.is_inactive (f : Flow) (current_time timeout : ℤ) : Bool :=
  match f.last_time with
  | none => false
  | some lt => current_time - lt > timeout

/-- `Flow.is_active_timeout`. -/
def Flow.is_active_timeout (f : Flow) (current_time timeout : ℤ) : Bool :=
  match f.start_time with
  | none => false
  | some st => current_time - st > timeout

/-- `Flow.expire`: set `end_time` (from the explicit timestamp, else the
last packet time, else the wall clock `now`) and raise `is_expired`. -/
def Flow.expire (f : Flow) (timestamp : Option ℤ) (now : ℤ) : Flow :=
  { f with
    end_time := match timestamp with
      | some t => some t
      | none => match f.last_time with
        | some lt => some lt
        | none => some now,
    is_expired := true }

/-! ### The flow table (`FlowBuilder`)

The Python dict `self.flows` is an insertion-ordered mapping with unique
keys; it is modelled by an association list together with the three dict
operations the source uses (lookup, write-through, `pop`). -/

/-- Dict lookup `self.flows[k]` / `k in self.flows`. -/
def lookupFlow (flows : List (FlowKey × Flow)) (k : FlowKey) : Option Flow :=
  (flows.find? (fun kv => kv.1 = k)).map Prod.snd

/-- Dict write `self.flows[k] = f`: overwrite the existing binding, else
append a new one (Python dicts keep insertion order). -/
def setFlow (flows : List (FlowKey × Flow)) (k : FlowKey) (f : Flow) :
    List (FlowKey × Flow) :=
  match flows with
  | [] => [(k, f)]
  | kv :: rest => if kv.1 = k then (k, f) :: rest else kv :: setFlow rest k f

/-- Dict `self.flows.pop(k)`: the removed value (if any) and the remaining
table. -/
def popFlow (flows : List (FlowKey × Flow)) (k : FlowKey) :
    Option Flow × List (FlowKey × Flow) :=
  match flows with
  | [] => (none, [])
  | kv :: rest =>
    if kv.1 = k then (some kv.2, rest)
    else
      let r := popFlow rest k
      (r.1, kv :: r.2)

/-- `FlowBuilder` state. -/
structure FlowBuilder where
  flows : List (FlowKey × Flow)
  bidirectional : Bool
  active_timeout : ℤ
  inactive_timeout : ℤ
  expired_flows : List Flow
  last_expiry_check : ℤ
  packets_processed : Nat
  flows_created : Nat
  flows_expired : Nat
deriving DecidableEq

/-- `FlowBuilder.__init__` (the wall-clock read initialising
`last_expiry_check` is passed in as `now`). -/
def FlowBuilder.mk0 (bidirectional : Bool) (active_timeout inactive_timeout now : ℤ) :
    FlowBuilder :=
  { flows := [], bidirectional := bidirectional,
    active_timeout := active_timeout, inactive_timeout := inactive_timeout,
    expired_flows := [], last_expiry_check := now,
    packets_processed := 0, flows_created := 0, flows_expired := 0 }

/-- `FlowBuilder._expire_flows`: expire (with `current_time` as end time)
and remove every flow that hit the active or the inactive timeout. -/
def FlowBuilder.expireFlowsSweep (b : FlowBuilder) (current_time : ℤ) : FlowBuilder :=
  let hit : FlowKey × Flow → Bool := fun kv =>
    kv.2.is_active_timeout current_time b.active_timeout ||
      kv.2.is_inactive current_time b.inactive_timeout
  let expired := (b.flows.filter hit).map (fun kv => kv.2.expire none current_time)
  { b with
    flows := b.flows.filter (fun kv => ¬ hit kv),
    expired_flows := b.expired_flows ++ expired,
    flows_expired := b.flows_expired + expired.length }

/-- Protocol tag and port pair `process_packet` derives from the transport
layer (`'TCP'`/`'UDP'`/`'ICMP'`, else `str(ip.proto)` with ports 0). -/
def protoOf (l : PktLayer) : String × Nat × Nat :=
  match l with
  | .tcp s d _ => ("TCP", s, d)
  | .udp s d => ("UDP", s, d)
  | .icmp => ("ICMP", 0, 0)
  | .other pr => (toString pr, 0, 0)

/-- Remove the flow stored under `k`, expire it with the packet timestamp,
record it, and return it (the shared tail of the two termination branches
of `process_packet`). -/
def FlowBuilder.popExpire (b : FlowBuilder) (k : FlowKey) (timestamp now : ℤ) :
    Option Flow × FlowBuilder :=
  match popFlow b.flows k with
  | (some ef, rest) =>
      let ef := ef.expire (some timestamp) now
      (some ef,
       { b with flows := rest,
                expired_flows := b.expired_flows ++ [ef],
                flows_expired := b.flows_expired + 1 })
  | (none, _) => (none, b)

/-- `FlowBuilder.process_packet`.  `now` is the wall-clock value
`time.time()` reads during the call. -/
def FlowBuilder.process_packet (b : FlowBuilder) (p : Packet) (now : ℤ) :
    Option Flow × FlowBuilder :=
  if ¬ p.hasIP then (none, b) else
  let pp := protoOf p.layer
  let flow_key : FlowKey :=
    { src_ip := p.src, dst_ip := p.dst,
      src_port := pp.2.1, dst_port := pp.2.2, protocol := pp.1 }
  let reversed_key := flow_key.reversed
  let b1 := { b with packets_processed := b.packets_processed + 1 }
  let timestamp := p.time
  -- route the packet: forward key, then (bidirectional) reversed key,
  -- else create a fresh flow stored under the forward key
  let routed : Flow × List (FlowKey × Flow) × Bool :=
    match lookupFlow b1.flows flow_key with
    | some f =>
        let f2 := f.add_packet p (some timestamp)
        (f2, setFlow b1.flows flow_key f2, false)
    | none =>
      match (if b1.bidirectional then lookupFlow b1.flows reversed_key else none) with
      | some f =>
          let f2 := f.add_packet p (some timestamp)
          (f2, setFlow b1.flows reversed_key f2, false)
      | none =>
          let f2 := (Flow.mk0 flow_key b1.bidirectional).add_packet p (some timestamp)
          (f2, b1.flows ++ [(flow_key, f2)], true)
  let flow := routed.1
  let b2 := { b1 with
    flows := routed.2.1,
    flows_created := b1.flows_created + (if routed.2.2 then 1 else 0) }
  -- opportunistic expiry sweep, at most once per second of wall time
  let b3 :=
    if now - b2.last_expiry_check > 1 then
      { (b2.expireFlowsSweep now) with last_expiry_check := now }
    else b2
  -- immediate termination on RST, or on FIN+ACK once the state is closed
  match p.layer with
  | .tcp _ _ flags =>
    if flags &&& 0x04 ≠ 0 then
      b3.popExpire flow_key timestamp now
    else if flags &&& 0x11 = 0x11 then
      if flow.state = "closed" then b3.popExpire flow_key timestamp now
      else (none, b3)
    else (none, b3)
  | _ => (none, b3)

/-! ### Feature extraction (`feature_extraction.py`)

`FeatureExtractor.extract_flow_features` consumes the dict produced by
`Flow.to_dict`.  The record below mirrors that dict: `start_time` and
`end_time` hold `none` exactly when the dict holds Python `None` (in which
case the very first subtraction raises `TypeError`, the `except` clause
catches it and the partially built — empty — feature dict is returned);
`tcp_flags`, `packet_sizes`, `inter_arrival_times` and `state` hold `none`
when the key is absent (the source tests key membership for these);
the remaining fields are read with `.get(key, default)` and are modelled
with the default already applied.  The square root used by
`statistics.stdev` is not rational, so it is abstracted as the parameter
`sqrtFn`; no claim depends on its value. -/

structure FlowRec where
  start_time : Option Int
  end_time : Option Int
  bytes : Nat
  packets : Nat
  tcp_flags : Option TcpFlags
  src_port : Nat
  dst_port : Nat
  protocol : String
  packet_sizes : Option (List Nat)
  inter_arrival_times : Option (List ℚ)
  state : Option String
deriving DecidableEq

/-- First-match association-list lookup (Python dict read). -/
def lookupA {β : Type} (l : List (String × β)) (k : String) : Option β :=
  match l with
  | [] => none
  | kv :: rest => if kv.1 = k then some kv.2 else lookupA rest k

/-- Association-list write-through (Python dict write; insertion order). -/
def setA {β : Type} (l : List (String × β)) (k : String) (v : β) :
    List (String × β) :=
  match l with
  | [] => [(k, v)]
  | kv :: rest => if kv.1 = k then (k, v) :: rest else kv :: setA rest k v

/-- Python `min` over a nonempty list (0 on the empty list, never hit). -/
def listMinQ (xs : List ℚ) : ℚ :=
  match xs with
  | [] => 0
  | h :: t => t.foldl min h

/-- Python `max` over a nonempty list (0 on the empty list, never hit). -/
def listMaxQ (xs : List ℚ) : ℚ :=
  match xs with
  | [] => 0
  | h :: t => t.foldl max h

/-- `statistics.mean`. -/
def meanQ (xs : List ℚ) : ℚ := xs.sum / (xs.length : ℚ)

/-- `statistics.stdev` (sample standard deviation), with the square root
abstracted by `sqrtFn`. -/
def stdevQ (sqrtFn : ℚ → ℚ) (xs : List ℚ) : ℚ :=
  sqrtFn ((xs.map (fun x => (x - meanQ xs) ^ 2)).sum / ((xs.length : ℚ) - 1))

/-- The `min/max/mean/std` block `extract_flow_features` emits for a
nonempty sample list, under the given key names. -/
def statBlock (sqrtFn : ℚ → ℚ) (kmin kmax kmean kstd : String) (xs : List ℚ) :
    List (String × ℚ) :=
  [(kmin, listMinQ xs), (kmax, listMaxQ xs), (kmean, meanQ xs),
   (kstd, if xs.length > 1 then stdevQ sqrtFn xs else 0)]

/-- The basic-statistics and derived-metrics section of
`extract_flow_features` (`duration` is computed by the caller from the two
timestamps). -/
def baseFeats (flow : FlowRec) (duration : ℚ) : List (String × ℚ) :=
  [("duration", duration),
   ("bytes", (flow.bytes : ℚ)),
   ("packets", (flow.packets : ℚ))]
  ++ (if duration > 0 then
        [("bytes_per_second", (flow.bytes : ℚ) / duration),
         ("packets_per_second", (flow.packets : ℚ) / duration)]
      else
        [("bytes_per_second", (flow.bytes : ℚ)),
         ("packets_per_second", (flow.packets : ℚ))])
  ++ (if flow.packets > 0 then
        [("bytes_per_packet", (flow.bytes : ℚ) / (flow.packets : ℚ))]
      else
        [("bytes_per_packet", 0)])

/-- The TCP flag-count and flag-ratio section (emitted only when the
record has a `tcp_flags` entry; the ratios only when `packets > 0`). -/
def flagFeats (flow : FlowRec) : List (String × ℚ) :=
  match flow.tcp_flags with
  | some fl =>
      [("syn_count", (fl.syn : ℚ)), ("ack_count", (fl.ack : ℚ)),
       ("fin_count", (fl.fin : ℚ)), ("rst_count", (fl.rst : ℚ)),
       ("psh_count", (fl.psh : ℚ)), ("urg_count", (fl.urg : ℚ))]
      ++ (if flow.packets > 0 then
            [("syn_ratio", (fl.syn : ℚ) / (flow.packets : ℚ)),
             ("ack_ratio", (fl.ack : ℚ) / (flow.packets : ℚ)),
             ("fin_ratio", (fl.fin : ℚ) / (flow.packets : ℚ)),
             ("rst_ratio", (fl.rst : ℚ) / (flow.packets : ℚ))]
          else [])
  | none => []

/-- The port, service-indicator and protocol-indicator section. -/
def portFeats (flow : FlowRec) : List (String × ℚ) :=
  [("src_port", (flow.src_port : ℚ)), ("dst_port", (flow.dst_port : ℚ)),
   ("is_well_known_port",
    if flow.src_port < 1024 ∨ flow.dst_port < 1024 then 1 else 0),
   ("is_http", if flow.src_port = 80 ∨ flow.dst_port = 80 then 1 else 0),
   ("is_https", if flow.src_port = 443 ∨ flow.dst_port = 443 then 1 else 0),
   ("is_dns", if flow.src_port = 53 ∨ flow.dst_port = 53 then 1 else 0),
   ("is_smtp", if flow.src_port = 25 ∨ flow.dst_port = 25 then 1 else 0),
   ("is_ssh", if flow.src_port = 22 ∨ flow.dst_port = 22 then 1 else 0),
   ("is_tcp", if flow.protocol.toLower = "tcp" then 1 else 0),
   ("is_udp", if flow.protocol.toLower = "udp" then 1 else 0),
   ("is_icmp", if flow.protocol.toLower = "icmp" then 1 else 0)]

/-- The packet-size statistics section (only for a present, nonempty
`packet_sizes` entry). -/
def sizeFeats (sqrtFn : ℚ → ℚ) (flow : FlowRec) : List (String × ℚ) :=
  match flow.packet_sizes with
  | some sizes =>
      if sizes ≠ [] then
        statBlock sqrtFn "min_packet_size" "max_packet_size"
          "mean_packet_size" "std_packet_size" (sizes.map (fun n => (n : ℚ)))
      else []
  | none => []

/-- The inter-arrival statistics section (only for a present, nonempty
`inter_arrival_times` entry). -/
def iatFeats (sqrtFn : ℚ → ℚ) (flow : FlowRec) : List (String × ℚ) :=
  match flow.inter_arrival_times with
  | some iat =>
      if iat ≠ [] then
        statBlock sqrtFn "min_iat" "max_iat" "mean_iat" "std_iat" iat
      else []
  | none => []

/-- The connection-state indicator section (only when the record has a
`state` entry). -/
def stateFeats (flow : FlowRec) : List (String × ℚ) :=
  match flow.state with
  | some s =>
      [("is_established", if s = "established" then 1 else 0),
       ("is_closed", if s = "closed" then 1 else 0),
       ("is_reset", if s = "reset" then 1 else 0),
       ("is_ongoing", if s = "ongoing" then 1 else 0)]
  | none => []

/-- `FeatureExtractor.extract_flow_features`: the sections in source
order.  A record whose `start_time` or `end_time` is Python `None` makes
the very first subtraction raise; the `except` clause returns the features
collected so far — the empty mapping. -/
def extract_flow_features (sqrtFn : ℚ → ℚ) (flow : FlowRec) : List (String × ℚ) :=
  match flow.start_time, flow.end_time with
  | some st, some et =>
      baseFeats flow (((et : ℚ) - (st : ℚ)) / 1000000)
        ++ flagFeats flow ++ portFeats flow
        ++ sizeFeats sqrtFn flow ++ iatFeats sqrtFn flow ++ stateFeats flow
  | _, _ => []

/-! ### The traffic graph (`graph_manager.py`)

`GraphManager` stores the graph in `networkx.Graph`, an undirected simple
graph: node attributes keyed by address, one attributed edge per unordered
address pair, `has_edge` symmetric.  The model keeps the node attributes in
an insertion-ordered association list and the edges in a list carrying both
endpoints, with the unordered-pair lookup spelled out (the same two-sided
match `EnhancedGraphManager.add_edge` in `simple_graph_analyzer.py` writes
explicitly). -/

structure GNode where
  last_seen : ℤ
  packet_count : Nat
  first_seen : ℤ
deriving DecidableEq

structure GEdge where
  u : String
  v : String
  weight : Nat
  last_seen : ℤ
deriving DecidableEq

structure TrafficGraph where
  nodes : List (String × GNode)
  edges : List GEdge
deriving DecidableEq

/-- Does edge `e` connect the unordered pair `{a, b}`? -/
def GEdge.joins (e : GEdge) (a b : String) : Bool :=
  (e.u == a && e.v == b) || (e.u == b && e.v == a)

/-- Node upsert of `GraphManager.update_graph`: bump `last_seen` and
`packet_count` when present, else insert with `packet_count` 1 and
`first_seen` set. -/
def upsertNode (nodes : List (String × GNode)) (ip : String) (t : ℤ) :
    List (String × GNode) :=
  match nodes with
  | [] => [(ip, ⟨t, 1, t⟩)]
  | nd :: rest =>
    if nd.1 = ip then
      (ip, { nd.2 with last_seen := t, packet_count := nd.2.packet_count + 1 }) :: rest
    else nd :: upsertNode rest ip t

/-- Bump the first edge joining `{a, b}`: weight + 1, `last_seen` updated
(the attribute writes on `self.graph[src][dst]`). -/
def bumpEdge (edges : List GEdge) (a b : String) (t : ℤ) : List GEdge :=
  match edges with
  | [] => []
  | e :: rest =>
    if e.joins a b then { e with weight := e.weight + 1, last_seen := t } :: rest
    else e :: bumpEdge rest a b t

/-- `GraphManager.update_graph` for one packet record: upsert both endpoint
nodes, then upsert the single undirected edge of the pair. -/
def update_graph (g : TrafficGraph) (src_ip dst_ip : String) (current_time : ℤ) :
    TrafficGraph :=
  let nodes := upsertNode (upsertNode g.nodes src_ip current_time) dst_ip current_time
  let edges :=
    if g.edges.any (fun e => e.joins src_ip dst_ip) then
      bumpEdge g.edges src_ip dst_ip current_time
    else g.edges ++ [⟨src_ip, dst_ip, 1, current_time⟩]
  ⟨nodes, edges⟩

/-- `networkx` degree: number of edges incident to `ip`. -/
def degreeOf (edges : List GEdge) (ip : String) : Nat :=
  (edges.filter (fun e => e.u == ip || e.v == ip)).length

/-- One pass of `GraphManager.prune_graph_periodically`: drop every edge
whose `last_seen` is older than `ttl`, then drop every node older than
`ttl` whose degree in the remaining edges is zero. -/
def prune_graph (g : TrafficGraph) (current_time ttl : ℤ) : TrafficGraph :=
  let edges := g.edges.filter (fun e => ! decide (current_time - e.last_seen > ttl))
  let nodes := g.nodes.filter (fun nd =>
    ! (decide (current_time - nd.2.last_seen > ttl) && decide (degreeOf edges nd.1 = 0)))
  ⟨nodes, edges⟩

/-! ### Graph analysis (`graph_analyzer.py`)

The NetworkX centrality computations and the scikit-learn DBSCAN run are
external numeric library calls; each is modelled as an oracle argument of
type `Except`, whose `error` case models the library raising.  The `try`
blocks of `_analyze_centrality_shifts` and `_analyze_traffic_clusters`
catch at the strategy boundary and return the alerts accumulated so far
(none, when the failure is the centrality/clustering call itself). -/

structure CentRecord where
  betweenness : ℚ
  degree : ℚ
deriving DecidableEq

/-- A `CentralityShift` alert (the display rounding `round(_, 4)` of the
two numeric fields is presentation only and not modelled). -/
structure CentAlert where
  node : String
  old_value : ℚ
  new_value : ℚ
deriving DecidableEq

/-- One iteration of the node loop of
`GraphAnalyzer._analyze_centrality_shifts`: read the previous betweenness
from the (so far updated) history with default 0, read the current value
with default 0, append an alert when the spike rule fires, then write the
node's history record. -/
def centShiftStep (betweenness degree : List (String × ℚ))
    (acc : List CentAlert × List (String × CentRecord)) (node : String) :
    List CentAlert × List (String × CentRecord) :=
  let prev_bc := ((lookupA acc.2 node).map CentRecord.betweenness).getD 0
  let curr_bc := (lookupA betweenness node).getD 0
  let alerts :=
    if curr_bc > 1/10 ∧ curr_bc > prev_bc * 5 ∧ prev_bc > 0 then
      acc.1 ++ [⟨node, prev_bc, curr_bc⟩]
    else acc.1
  (alerts, setA acc.2 node ⟨curr_bc, (lookupA degree node).getD 0⟩)

/-- The loop of `GraphAnalyzer._analyze_centrality_shifts`, given the
snapshot's node list and the computed centrality maps (`.get(node, 0)`
reads).  Returns the emitted alerts and the updated history. -/
def analyzeCentralityShifts (nodes : List String)
    (betweenness degree : List (String × ℚ))
    (history : List (String × CentRecord)) :
    List CentAlert × List (String × CentRecord) :=
  nodes.foldl (centShiftStep betweenness degree) ([], history)

/-- `_analyze_centrality_shifts` with its `try/except` boundary: the oracle
pair holds (betweenness map, degree map); a raise in the centrality
computation is caught, no alert is emitted and the history is left
unchanged. -/
def analyzeCentralityShiftsCaught
    (centralities : Except String (List (String × ℚ) × List (String × ℚ)))
    (nodes : List String) (history : List (String × CentRecord)) :
    List CentAlert × List (String × CentRecord) :=
  match centralities with
  | .error _ => ([], history)
  | .ok bd => analyzeCentralityShifts nodes bd.1 bd.2 history

/-- A `TrafficClusterOutlier` alert. -/
structure ClusterAlert where
  node : String
deriving DecidableEq

/-- `_analyze_traffic_clusters` with its `try/except` boundary, given the
DBSCAN outlier nodes as an oracle: a raise is caught and yields no alert. -/
def analyzeTrafficClustersCaught (outliers : Except String (List String)) :
    List ClusterAlert :=
  match outliers with
  | .error _ => []
  | .ok ns => ns.map (fun n => ⟨n⟩)

/-- An alert of either strategy (`all_alerts` mixes both dict shapes). -/
inductive Alert where
  | cent (a : CentAlert)
  | clus (a : ClusterAlert)
deriving DecidableEq

/-- One iteration of `GraphAnalyzer.run_analysis_periodically` past the
size gate: run both strategies and concatenate
`centrality_alerts + cluster_alerts`. -/
def runAnalysisCycle
    (centralities : Except String (List (String × ℚ) × List (String × ℚ)))
    (outliers : Except String (List String))
    (nodes : List String) (history : List (String × CentRecord)) :
    List Alert × List (String × CentRecord) :=
  let c := analyzeCentralityShiftsCaught centralities nodes history
  let k := analyzeTrafficClustersCaught outliers
  (c.1.map Alert.cent ++ k.map Alert.clus, c.2)

/-! ### Scan detection (`simple_graph_analyzer.py`)

`SimpleGraphAnalyzer._detect_scanning_behavior` works off the link list of
the graph snapshot (`link.get('weight', 1)` is modelled with the default
already applied). -/

structure Link where
  source : String
  target : String
  weight : Nat
deriving DecidableEq

/-- `connection_counts[n]`: both endpoint counters are incremented per
link. -/
def connCount (links : List Link) (n : String) : Nat :=
  links.foldl
    (fun acc l =>
      acc + (if l.source = n then 1 else 0) + (if l.target = n then 1 else 0)) 0

/-- `connection_weights[n]`: the link weight is appended for the source and
for the target endpoint. -/
def connWeights (links : List Link) (n : String) : List Nat :=
  links.foldl
    (fun acc l =>
      (acc ++ (if l.source = n then [l.weight] else []))
        ++ (if l.target = n then [l.weight] else []))
    []

/-- Iteration order of `connection_counts.items()`: nodes in order of first
appearance in the link list (defaultdict insertion order). -/
def nodesOfLinks (links : List Link) : List String :=
  links.foldl
    (fun acc l =>
      let acc := if l.source ∈ acc then acc else acc ++ [l.source]
      if l.target ∈ acc then acc else acc ++ [l.target])
    []

/-- `avg_weight`: mean of the collected weights, 0 when there are none. -/
def avgWeight (links : List Link) (n : String) : ℚ :=
  let ws := connWeights links n
  if ws ≠ [] then (ws.sum : ℚ) / (ws.length : ℚ) else 0

/-- `SimpleGraphAnalyzer._detect_scanning_behavior` (its `adjacency`
parameter is unused in the source). -/
def detectScanningBehavior (links : List Link) : List String :=
  (nodesOfLinks links).filter
    (fun n => decide (connCount links n ≥ 4) && decide (avgWeight links n ≤ 2))

/-- The links incident to `n` — the claim-level reading of "distinct links
at node n". -/
def incidentLinks (links : List Link) (n : String) : List Link :=
  links.filter (fun l => l.source == n || l.target == n)

/-! ### Claim-side definitions and concrete fixtures -/

/-- The TCP transition table the code actually implements, phrased as the
amended claim reads: from `new`, SYN (alone or combined with anything)
yields `syn_sent` and ACK without SYN yields `syn_received`; from the two
`syn_*` states ACK yields `established`; from `established` FIN yields
`closing`, else RST yields `reset`; from `closing` FIN yields `close_wait`,
else RST yields `reset`; from `close_wait` ACK yields `closed`; RST is
recognised nowhere else; anything else leaves the state unchanged. -/
def amendedTcpState (state : String) (flags : Nat) : String :=
  if state = "new" then
    if flags &&& 0x02 ≠ 0 then "syn_sent"
    else if flags &&& 0x10 ≠ 0 then "syn_received"
    else "new"
  else if state = "syn_sent" ∨ state = "syn_received" then
    if flags &&& 0x10 ≠ 0 then "established" else state
  else if state = "established" then
    if flags &&& 0x01 ≠ 0 then "closing"
    else if flags &&& 0x04 ≠ 0 then "reset"
    else "established"
  else if state = "closing" then
    if flags &&& 0x01 ≠ 0 then "close_wait"
    else if flags &&& 0x04 ≠ 0 then "reset"
    else "closing"
  else if state = "close_wait" then
    if flags &&& 0x10 ≠ 0 then "closed" else "close_wait"
  else state

/-- The centrality-shift alert condition of the spec, read off the current
betweenness map and the previous history: the current value exceeds the
floor 1/10, exceeds five times the recorded value, and a recorded value
greater than zero exists. -/
def centShiftCond (betweenness : List (String × ℚ))
    (history : List (String × CentRecord)) (n : String) : Prop :=
  (lookupA betweenness n).getD 0 > 1/10 ∧
    (lookupA betweenness n).getD 0 >
      (((lookupA history n).map CentRecord.betweenness).getD 0) * 5 ∧
    ((lookupA history n).map CentRecord.betweenness).getD 0 > 0

instance (betweenness : List (String × ℚ)) (history : List (String × CentRecord))
    (n : String) : Decidable (centShiftCond betweenness history n) := by
  unfold centShiftCond
  infer_instance

/-- Is `ip` a node of the graph? -/
def hasNode (nodes : List (String × GNode)) (ip : String) : Prop :=
  ∃ nd ∈ nodes, nd.1 = ip

/-- The unique undirected edge of a pair, if present (first match, as both
`networkx` and the explicit search in `EnhancedGraphManager.add_edge`
resolve it). -/
def pairEdge (g : TrafficGraph) (a b : String) : Option GEdge :=
  g.edges.find? (fun e => e.joins a b)

/-- Weight of the pair's edge, 0 when absent. -/
def pairWeight (g : TrafficGraph) (a b : String) : Nat :=
  ((pairEdge g a b).map GEdge.weight).getD 0

/-- Number of stored edges joining the unordered pair `{a, b}`. -/
def pairCount (g : TrafficGraph) (a b : String) : Nat :=
  (g.edges.filter (fun e => e.joins a b)).length

/-- The bookkeeping invariant of `Flow` under `add_packet`: packet count,
size list, byte total, inter-arrival list and flag counters agree. -/
def flowWellFormed (f : Flow) : Prop :=
  f.packets = f.packet_sizes.length ∧
  f.bytes = f.packet_sizes.sum ∧
  f.inter_arrival_times.length = f.packets - 1 ∧
  f.tcp_flags.fin ≤ f.packets ∧ f.tcp_flags.syn ≤ f.packets ∧
  f.tcp_flags.rst ≤ f.packets ∧ f.tcp_flags.psh ≤ f.packets ∧
  f.tcp_flags.ack ≤ f.packets ∧ f.tcp_flags.urg ≤ f.packets ∧
  f.tcp_flags.ece ≤ f.packets ∧ f.tcp_flags.cwr ≤ f.packets

/-- Auxiliary strengthening of `flowWellFormed` that makes it inductive:
the last-seen time is unset exactly on flows that saw no packet. -/
def flowWF (f : Flow) : Prop :=
  flowWellFormed f ∧ (f.last_time = none ↔ f.packets = 0)

/-- Build a TCP test packet. -/
def tcpPacket (s d : String) (sp dp flags : Nat) (t : ℤ) : Packet :=
  { hasIP := true, src := s, dst := d, layer := .tcp sp dp flags,
    size := 60, time := t }

/-- A fresh bidirectional flow builder (timeouts 300 s / 60 s, clock 0). -/
def builder0 : FlowBuilder := FlowBuilder.mk0 true 300 60 0

/-- The forward key of the test conversation A:1234 → B:80. -/
def keyAB : FlowKey := ⟨"10.0.0.1", "10.0.0.2", 1234, 80, "TCP"⟩

/-- SYN from A to B. -/
def synAB : Packet := tcpPacket "10.0.0.1" "10.0.0.2" 1234 80 0x02 0

/-- RST from B to A (the reverse direction). -/
def rstBA : Packet := tcpPacket "10.0.0.2" "10.0.0.1" 80 1234 0x04 1

/-- RST from A to B (the forward direction). -/
def rstAB : Packet := tcpPacket "10.0.0.1" "10.0.0.2" 1234 80 0x04 1

/-- A packet with no IP layer. -/
def pktNoIP : Packet :=
  { hasIP := false, src := "", dst := "", layer := .icmp, size := 0, time := 0 }

/-- Run a packet list through a fresh builder with the wall clock pinned
at 0 (so the opportunistic sweep never triggers). -/
def runBuilder (ps : List Packet) : Option Flow × FlowBuilder :=
  ps.foldl (fun acc p => acc.2.process_packet p 0) (none, builder0)

/-- The canonical TCP conversation: handshake, then FIN from A, FIN-ACK
from B, final pure ACK from A. -/
def closeSeq : List Packet :=
  [ tcpPacket "10.0.0.1" "10.0.0.2" 1234 80 0x02 0,
    tcpPacket "10.0.0.2" "10.0.0.1" 80 1234 0x12 1,
    tcpPacket "10.0.0.1" "10.0.0.2" 1234 80 0x10 2,
    tcpPacket "10.0.0.1" "10.0.0.2" 1234 80 0x11 3,
    tcpPacket "10.0.0.2" "10.0.0.1" 80 1234 0x11 4,
    tcpPacket "10.0.0.1" "10.0.0.2" 1234 80 0x10 5 ]

/-- A flow of the test conversation waiting for the last ACK of the close
handshake. -/
def flowCW : Flow :=
  { (Flow.mk0 keyAB true) with
    state := "close_wait",
    start_time := some 0, last_time := some 4, packets := 5, bytes := 300,
    packet_times := [0, 1, 2, 3, 4], packet_sizes := [60, 60, 60, 60, 60],
    inter_arrival_times := [1, 1, 1, 1] }

/-- A builder holding exactly the close-waiting flow. -/
def builderCW : FlowBuilder := { builder0 with flows := [(keyAB, flowCW)] }

/-- FIN+ACK from A to B at time 5. -/
def finAckAB : Packet := tcpPacket "10.0.0.1" "10.0.0.2" 1234 80 0x11 5

/-- A zero-packet flow record with both timestamps present (the shape
`Flow.to_dict` gives an empty flow, with the `None` timestamps replaced by
0 to stay on the non-raising path). -/
def flowRec0 : FlowRec :=
  { start_time := some 0, end_time := some 0, bytes := 0, packets := 0,
    tcp_flags := some TcpFlags.zero, src_port := 1234, dst_port := 80,
    protocol := "TCP", packet_sizes := none, inter_arrival_times := none,
    state := some "new" }

/-- Scan fixture: one host talking to five distinct peers, weight 1 each. -/
def scanLinks : List Link :=
  [⟨"S", "p1", 1⟩, ⟨"S", "p2", 1⟩, ⟨"S", "p3", 1⟩, ⟨"S", "p4", 1⟩, ⟨"S", "p5", 1⟩]

/-- Heavy-talker fixture: one host talking to two peers, weight 50 each. -/
def heavyLinks : List Link :=
  [⟨"H", "p1", 50⟩, ⟨"H", "p2", 50⟩]

/-- Betweenness snapshot fixture for the centrality analyser. -/
def betFix : List (String × ℚ) := [("n1", 3/10), ("n2", 3/10)]

/-- Centrality history fixture: only `n1` was seen before. -/
def histFix : List (String × CentRecord) := [("n1", ⟨1/20, 0⟩)]

/-- A two-node, one-edge traffic graph fixture (edge last seen at 100). -/
def graphFix : TrafficGraph :=
  ⟨[("A", ⟨0, 1, 0⟩), ("B", ⟨100, 1, 0⟩)], [⟨"A", "B", 2, 100⟩]⟩

/-- The flow created by the SYN packet of the test conversation. -/
def synFlow : Flow := (Flow.mk0 keyAB true).add_packet synAB (some 0)

/-- A builder holding exactly the SYN-opened flow under its forward key. -/
def builderAB : FlowBuilder := { builder0 with flows := [(keyAB, synFlow)] }

/-! ## Helper lemmas -/

/-- A masked flag test only depends on the low 8 bits. -/
lemma and_mask_mod256 (f m : Nat) (hmm : 255 &&& m = m) :
    f &&& m = f % 256 &&& m := by
  have h : f % 256 = f &&& 255 := by
    simpa using (Nat.and_pow_two_sub_one_eq_mod f 8).symm
  rw [h, Nat.and_assoc, hmm]

/-- Without the SYN bit, testing mask `0x12` is testing the ACK bit. -/
lemma synack_guard (f : Nat) (h : f &&& 2 = 0) : (f &&& 18 ≠ 0) ↔ (f &&& 16 ≠ 0) := by
  rw [and_mask_mod256 f 18 (by decide), and_mask_mod256 f 16 (by decide)]
  rw [and_mask_mod256 f 2 (by decide)] at h
  have hlt : f % 256 < 256 := Nat.mod_lt _ (by norm_num)
  revert h
  generalize f % 256 = r at hlt ⊢
  interval_cases r <;> decide

/-- Without the FIN bit, the `flags & 0x11 == 0x11` test fails. -/
lemma finack_guard (f : Nat) (h : f &&& 1 = 0) : ¬ f &&& 17 = 17 := by
  rw [and_mask_mod256 f 17 (by decide)]
  rw [and_mask_mod256 f 1 (by decide)] at h
  have hlt : f % 256 < 256 := Nat.mod_lt _ (by norm_num)
  revert h
  generalize f % 256 = r at hlt ⊢
  interval_cases r <;> decide

/-! ## C2 — the per-flow TCP state machine -/

/-- C2 counterexample: the spec's transition table fails on the code.  From
state `new`, a combined SYN+ACK packet (flags `0x12`) yields `syn_sent`,
not the claimed `syn_received` (the `elif flags & 0x12` branch is shadowed
by the SYN test), and an RST packet (flags `0x04`) leaves the state `new`
instead of moving to the claimed terminal `reset`. -/
theorem updateTcpState_refutes_claimed_table :
    updateTcpState "new" 0x12 ≠ "syn_received" ∧
      updateTcpState "new" 0x04 ≠ "reset" := by
  refine ⟨?_, ?_⟩ <;> decide

/-- C2 (amended): `Flow._update_tcp_state` implements exactly this table:
from `new`, any packet with SYN set yields `syn_sent` and a packet with ACK
but not SYN yields `syn_received`; from `syn_sent`/`syn_received`, ACK
yields `established`; from `established`, FIN yields `closing`, else RST
yields `reset`; from `closing`, FIN yields `close_wait`, else RST yields
`reset`; from `close_wait`, ACK yields `closed`; RST is recognised only in
`established` and `closing` (in particular it does not touch `new`, the
`syn_*` states, `close_wait` or `closed`); any other flag combination
leaves the state unchanged. -/
theorem updateTcpState_eq_amendedTable :
    (∀ s f, updateTcpState s f = amendedTcpState s f) ∧
      ∀ f, updateTcpState "new" f ≠ "reset" := by
  have key : ∀ s f, updateTcpState s f = amendedTcpState s f := by
    intro s f
    unfold updateTcpState amendedTcpState
    by_cases h1 : s = "new"
    · subst h1
      simp only [reduceIte]
      by_cases h2 : f &&& 2 ≠ 0
      · simp [h2]
      · push_neg at h2
        by_cases h3 : f &&& 16 ≠ 0
        · have h18 : f &&& 18 ≠ 0 := (synack_guard f h2).mpr h3
          simp [h2, h3, h18]
        · push_neg at h3
          have h18 : f &&& 18 = 0 := by
            by_contra hc
            exact absurd ((synack_guard f h2).mp hc) (by simp [h3])
          simp [h2, h3, h18]
    · by_cases h2 : s = "syn_sent"
      · subst h2; simp
      · by_cases h3 : s = "syn_received"
        · subst h3; simp
        · by_cases h4 : s = "established"
          · subst h4; simp
          · by_cases h5 : s = "closing"
            · subst h5; simp
            · by_cases h6 : s = "close_wait"
              · subst h6; simp
              · simp [h1, h2, h3, h4, h5, h6]
  refine ⟨key, ?_⟩
  intro f
  rw [key]
  unfold amendedTcpState
  simp only [reduceIte]
  by_cases h2 : f &&& 2 ≠ 0
  · simp [h2]
  · by_cases h3 : f &&& 16 ≠ 0 <;> simp [h2, h3]

/-! ## C9 — strategy failures are caught at the strategy boundary -/

/-- C9: neither analysis strategy propagates a failure.  A centrality
failure is caught, contributes no alert, leaves the history unchanged and
does not prevent the cluster strategy from contributing its alerts; a
cluster failure is caught and does not prevent the centrality strategy; and
when both fail the cycle still returns (no alerts, history unchanged), so
the next scheduled cycle can run. -/
theorem analysis_cycle_isolates_strategy_failures :
    (∀ (e : String) (outliers : Except String (List String))
        (nodes : List String) (history : List (String × CentRecord)),
        runAnalysisCycle (Except.error e) outliers nodes history =
          ((analyzeTrafficClustersCaught outliers).map Alert.clus, history)) ∧
    (∀ (cent : Except String (List (String × ℚ) × List (String × ℚ)))
        (e : String) (nodes : List String) (history : List (String × CentRecord)),
        runAnalysisCycle cent (Except.error e) nodes history =
          ((analyzeCentralityShiftsCaught cent nodes history).1.map Alert.cent,
           (analyzeCentralityShiftsCaught cent nodes history).2)) ∧
    ∀ (e e2 : String) (nodes : List String) (history : List (String × CentRecord)),
        runAnalysisCycle (Except.error e) (Except.error e2) nodes history =
          ([], history) := by
  refine ⟨?_, ?_, ?_⟩ <;> intros <;>
    simp [runAnalysisCycle, analyzeCentralityShiftsCaught, analyzeTrafficClustersCaught]

/-! ## C6 — the scan detector -/

/-- Pulling the start value out of the `connection_counts` fold. -/
lemma connCount_foldl_init (links : List Link) (n : String) (a : Nat) :
    links.foldl
      (fun acc l =>
        acc + (if l.source = n then 1 else 0) + (if l.target = n then 1 else 0)) a
      = a + connCount links n := by
  induction links generalizing a with
  | nil => simp [connCount]
  | cons l ls ih =>
      simp only [connCount, List.foldl_cons]
      rw [ih, ih]
      omega

/-- With no self-loop, the incidence counter counts the incident links. -/
lemma connCount_eq_incident (links : List Link) (n : String)
    (h : ∀ l ∈ links, l.source ≠ l.target) :
    connCount links n = (incidentLinks links n).length := by
  induction links with
  | nil => simp [connCount, incidentLinks]
  | cons l ls ih =>
      have hl : l.source ≠ l.target := h l (List.mem_cons_self l ls)
      have ih' := ih (fun x hx => h x (List.mem_cons_of_mem _ hx))
      have hstep : connCount (l :: ls) n =
          (if l.source = n then 1 else 0) + (if l.target = n then 1 else 0)
            + connCount ls n := by
        have h0 : connCount (l :: ls) n =
            ls.foldl
              (fun acc l =>
                acc + (if l.source = n then 1 else 0)
                  + (if l.target = n then 1 else 0))
              (0 + (if l.source = n then 1 else 0)
                + (if l.target = n then 1 else 0)) := rfl
        rw [h0, connCount_foldl_init]
        omega
      rw [hstep, ih']
      simp only [incidentLinks, List.filter_cons]
      by_cases hs : l.source = n
      · have ht : ¬ l.target = n := fun hc => hl (hs.trans hc.symm)
        simp [hs, ht]
        omega
      · by_cases ht : l.target = n
        · simp [hs, ht]
          omega
        · simp [hs, ht]

/-- Pulling the start value out of the `connection_weights` fold. -/
lemma connWeights_foldl_init (links : List Link) (n : String) (a : List Nat) :
    links.foldl
      (fun acc l =>
        (acc ++ (if l.source = n then [l.weight] else []))
          ++ (if l.target = n then [l.weight] else [])) a
      = a ++ connWeights links n := by
  induction links generalizing a with
  | nil => simp [connWeights]
  | cons l ls ih =>
      have h0 : (l :: ls).foldl
          (fun acc l =>
            (acc ++ (if l.source = n then [l.weight] else []))
              ++ (if l.target = n then [l.weight] else [])) a =
          ls.foldl
            (fun acc l =>
              (acc ++ (if l.source = n then [l.weight] else []))
                ++ (if l.target = n then [l.weight] else []))
            ((a ++ (if l.source = n then [l.weight] else []))
              ++ (if l.target = n then [l.weight] else [])) := rfl
      have h1 : connWeights (l :: ls) n =
          ls.foldl
            (fun acc l =>
              (acc ++ (if l.source = n then [l.weight] else []))
                ++ (if l.target = n then [l.weight] else []))
            (([] ++ (if l.source = n then [l.weight] else []))
              ++ (if l.target = n then [l.weight] else [])) := rfl
      rw [h0, ih, h1, ih]
      simp [List.append_assoc]

/-- With no self-loop, the collected weights are the incident weights. -/
lemma connWeights_eq_incident (links : List Link) (n : String)
    (h : ∀ l ∈ links, l.source ≠ l.target) :
    connWeights links n = (incidentLinks links n).map Link.weight := by
  induction links with
  | nil => simp [connWeights, incidentLinks]
  | cons l ls ih =>
      have hl : l.source ≠ l.target := h l (List.mem_cons_self l ls)
      have ih' := ih (fun x hx => h x (List.mem_cons_of_mem _ hx))
      have hstep : connWeights (l :: ls) n =
          ((if l.source = n then [l.weight] else [])
            ++ (if l.target = n then [l.weight] else [])) ++ connWeights ls n := by
        have h0 : connWeights (l :: ls) n =
            ls.foldl
              (fun acc l =>
                (acc ++ (if l.source = n then [l.weight] else []))
                  ++ (if l.target = n then [l.weight] else []))
              (([] ++ (if l.source = n then [l.weight] else []))
                ++ (if l.target = n then [l.weight] else [])) := rfl
        rw [h0, connWeights_foldl_init]
        simp [List.append_assoc]
      rw [hstep, ih']
      simp only [incidentLinks, List.filter_cons]
      by_cases hs : l.source = n
      · have ht : ¬ l.target = n := fun hc => hl (hs.trans hc.symm)
        simp [hs, ht]
      · by_cases ht : l.target = n <;> simp [hs, ht]

/-- Membership in the insertion-ordered node list of the links. -/
lemma mem_insertAbsent (acc : List String) (x n : String) :
    n ∈ (if x ∈ acc then acc else acc ++ [x]) ↔ n ∈ acc ∨ n = x := by
  by_cases h : x ∈ acc
  · simp only [h, if_pos]
    exact ⟨Or.inl, fun hc => hc.elim id (fun hx => hx ▸ h)⟩
  · simp [h]

/-- Membership in the `connection_counts` key set. -/
lemma mem_nodesOfLinks_aux (ls : List Link) (acc : List String) (n : String) :
    n ∈ ls.foldl
        (fun acc l =>
          let acc := if l.source ∈ acc then acc else acc ++ [l.source]
          if l.target ∈ acc then acc else acc ++ [l.target]) acc ↔
      n ∈ acc ∨ ∃ l ∈ ls, l.source = n ∨ l.target = n := by
  induction ls generalizing acc with
  | nil => simp
  | cons l ls ih =>
      simp only [List.foldl_cons]
      rw [ih]
      rw [mem_insertAbsent, mem_insertAbsent]
      constructor
      · rintro (((hin | hsrc) | htgt) | ⟨l', hl', hor⟩)
        · exact Or.inl hin
        · exact Or.inr ⟨l, List.mem_cons_self l ls, Or.inl hsrc.symm⟩
        · exact Or.inr ⟨l, List.mem_cons_self l ls, Or.inr htgt.symm⟩
        · exact Or.inr ⟨l', List.mem_cons_of_mem _ hl', hor⟩
      · rintro (hin | ⟨l', hl', hor⟩)
        · exact Or.inl (Or.inl (Or.inl hin))
        · rcases List.mem_cons.mp hl' with heq | hmem
          · subst heq
            rcases hor with hsrc | htgt
            · exact Or.inl (Or.inl (Or.inr hsrc.symm))
            · exact Or.inl (Or.inr htgt.symm)
          · exact Or.inr ⟨l', hmem, hor⟩

/-- `n` is a `connection_counts` key iff some link touches it. -/
lemma mem_nodesOfLinks (links : List Link) (n : String) :
    n ∈ nodesOfLinks links ↔ ∃ l ∈ links, l.source = n ∨ l.target = n := by
  unfold nodesOfLinks
  rw [mem_nodesOfLinks_aux]
  simp

/-- With no self-loop, the code's average weight is the mean weight of the
incident links (when any exist). -/
lemma avgWeight_eq_meanQ (links : List Link) (n : String)
    (h : ∀ l ∈ links, l.source ≠ l.target)
    (hne : incidentLinks links n ≠ []) :
    avgWeight links n =
      meanQ ((incidentLinks links n).map (fun l => (l.weight : ℚ))) := by
  unfold avgWeight meanQ
  rw [connWeights_eq_incident links n h]
  have hne2 : (incidentLinks links n).map Link.weight ≠ [] := by
    simpa using hne
  rw [if_pos hne2, Nat.cast_list_sum, List.map_map]
  simp only [Function.comp_def, List.length_map]

/-- C6: the scan detector flags exactly the nodes incident to at least four
links whose mean link weight is at most 2 (stated for self-loop-free link
lists, where the code's per-endpoint counter counts incident links); in
particular a host talking to five peers over weight-1 links is flagged and
a host talking to two peers over weight-50 links is not. -/
theorem detect_scanning_characterisation :
    (∀ (links : List Link) (n : String), (∀ l ∈ links, l.source ≠ l.target) →
        (n ∈ detectScanningBehavior links ↔
          4 ≤ (incidentLinks links n).length ∧
            meanQ ((incidentLinks links n).map (fun l => (l.weight : ℚ))) ≤ 2)) ∧
      "S" ∈ detectScanningBehavior scanLinks ∧
        "H" ∉ detectScanningBehavior heavyLinks := by
  have main : ∀ (links : List Link) (n : String),
      (∀ l ∈ links, l.source ≠ l.target) →
      (n ∈ detectScanningBehavior links ↔
        4 ≤ (incidentLinks links n).length ∧
          meanQ ((incidentLinks links n).map (fun l => (l.weight : ℚ))) ≤ 2) := by
    intro links n h
    unfold detectScanningBehavior
    rw [List.mem_filter]
    rw [mem_nodesOfLinks]
    simp only [Bool.and_eq_true, decide_eq_true_eq]
    constructor
    · rintro ⟨-, h4, h2⟩
      have hc := connCount_eq_incident links n h
      have hne : incidentLinks links n ≠ [] := by
        intro hnil
        rw [hc, hnil] at h4
        simp at h4
      exact ⟨hc ▸ h4, (avgWeight_eq_meanQ links n h hne) ▸ h2⟩
    · rintro ⟨h4, h2⟩
      have hc := connCount_eq_incident links n h
      have hne : incidentLinks links n ≠ [] := by
        intro hnil
        rw [hnil] at h4
        simp at h4
      obtain ⟨l, hl⟩ := List.exists_mem_of_ne_nil _ hne
      have hl' := List.mem_filter.mp hl
      refine ⟨⟨l, hl'.1, ?_⟩, hc ▸ h4, (avgWeight_eq_meanQ links n h hne) ▸ h2⟩
      have := hl'.2
      simp only [Bool.or_eq_true, beq_iff_eq] at this
      exact this
  refine ⟨main, ?_, ?_⟩
  · refine (main scanLinks "S" (by decide)).mpr ⟨?_, ?_⟩
    · have hinc : incidentLinks scanLinks "S" = scanLinks := by decide
      rw [hinc]
      decide
    · have hinc : incidentLinks scanLinks "S" = scanLinks := by decide
      rw [hinc]
      norm_num [meanQ, scanLinks]
  · intro hmem
    have h2 := (main heavyLinks "H" (by decide)).mp hmem
    have hinc : (incidentLinks heavyLinks "H").length = 2 := by decide
    rw [hinc] at h2
    exact absurd h2.1 (by norm_num)

/-- C6 witness: the characterisation applied to the five-peer scan
fixture. -/
theorem detect_scanning_witness :
    (∀ l ∈ scanLinks, l.source ≠ l.target) ∧
      ("S" ∈ detectScanningBehavior scanLinks ↔
        4 ≤ (incidentLinks scanLinks "S").length ∧
          meanQ ((incidentLinks scanLinks "S").map (fun l => (l.weight : ℚ))) ≤ 2) :=
  ⟨by decide, detect_scanning_characterisation.1 scanLinks "S" (by decide)⟩

/-! ## C5 — the centrality-shift strategy -/

/-- Reading an association list back at the key just written. -/
lemma lookupA_setA_self {β : Type} (l : List (String × β)) (k : String) (v : β) :
    lookupA (setA l k v) k = some v := by
  induction l with
  | nil => simp [setA, lookupA]
  | cons kv rest ih =>
      by_cases h : kv.1 = k
      · simp [setA, h, lookupA]
      · simp [setA, h, lookupA, ih]

/-- Writing one key leaves every other key's binding unchanged. -/
lemma lookupA_setA_ne {β : Type} (l : List (String × β)) (k k' : String) (v : β)
    (h : k' ≠ k) : lookupA (setA l k v) k' = lookupA l k' := by
  induction l with
  | nil => simp [setA, lookupA, Ne.symm h]
  | cons kv rest ih =>
      by_cases hk : kv.1 = k
      · simp [setA, hk, lookupA, Ne.symm h]
      · simp only [setA, hk, ite_false, lookupA]
        by_cases hk' : kv.1 = k' <;> simp [hk', ih]

/-- The spike condition only reads the node's own history binding. -/
lemma centShiftCond_ext (bet : List (String × ℚ))
    (h1 h2 : List (String × CentRecord)) (n : String)
    (h : lookupA h1 n = lookupA h2 n) :
    centShiftCond bet h1 n ↔ centShiftCond bet h2 n := by
  unfold centShiftCond
  rw [h]

/-- What one pass of the centrality loop does to the whole fold: processed
nodes end with their fresh history record; unprocessed keys keep their
binding; alerts are only appended, only for processed nodes, and a
processed node gains an alert exactly when the spike condition held on the
history as it stood when the node was reached. -/
lemma centShiftStep_fold (bet deg : List (String × ℚ)) (nodes : List String) :
    ∀ acc : List CentAlert × List (String × CentRecord),
      nodes.Nodup →
      (∀ n ∈ nodes,
        lookupA (nodes.foldl (centShiftStep bet deg) acc).2 n =
          some ⟨(lookupA bet n).getD 0, (lookupA deg n).getD 0⟩) ∧
      (∀ m, m ∉ nodes →
        lookupA (nodes.foldl (centShiftStep bet deg) acc).2 m = lookupA acc.2 m) ∧
      (∃ extra, (nodes.foldl (centShiftStep bet deg) acc).1 = acc.1 ++ extra ∧
        ∀ a ∈ extra, a.node ∈ nodes) ∧
      (∀ n ∈ nodes,
        ((∃ a ∈ (nodes.foldl (centShiftStep bet deg) acc).1, a.node = n) ↔
          ((∃ a ∈ acc.1, a.node = n) ∨ centShiftCond bet acc.2 n))) := by
  induction nodes with
  | nil =>
      intro acc _
      exact ⟨by simp, by simp, ⟨[], by simp, by simp⟩, by simp⟩
  | cons n0 t ih =>
      intro acc hnd
      rw [List.nodup_cons] at hnd
      obtain ⟨hn0, ht⟩ := hnd
      obtain ⟨ih1, ih2, ih3, ih4⟩ := ih (centShiftStep bet deg acc n0) ht
      have hfold : (n0 :: t).foldl (centShiftStep bet deg) acc
          = t.foldl (centShiftStep bet deg) (centShiftStep bet deg acc n0) := rfl
      have hsnd : (centShiftStep bet deg acc n0).2
          = setA acc.2 n0 ⟨(lookupA bet n0).getD 0, (lookupA deg n0).getD 0⟩ := rfl
      have hfst0 : (centShiftStep bet deg acc n0).1 =
          if centShiftCond bet acc.2 n0 then
            acc.1 ++ [⟨n0, ((lookupA acc.2 n0).map CentRecord.betweenness).getD 0,
              (lookupA bet n0).getD 0⟩]
          else acc.1 := rfl
      have hfst : (centShiftStep bet deg acc n0).1 = acc.1 ++
          (if centShiftCond bet acc.2 n0 then
            [⟨n0, ((lookupA acc.2 n0).map CentRecord.betweenness).getD 0,
              (lookupA bet n0).getD 0⟩]
           else []) := by
        rw [hfst0]
        by_cases hc : centShiftCond bet acc.2 n0 <;> simp [hc]
      refine ⟨?_, ?_, ?_, ?_⟩
      · intro n hn
        rw [hfold]
        rcases List.mem_cons.mp hn with rfl | hmem
        · rw [ih2 n hn0, hsnd, lookupA_setA_self]
        · exact ih1 n hmem
      · intro m hm
        have hmt : m ∉ t := fun hc => hm (List.mem_cons_of_mem _ hc)
        have hmn : m ≠ n0 := fun hc => hm (hc ▸ List.mem_cons_self n0 t)
        rw [hfold, ih2 m hmt, hsnd, lookupA_setA_ne _ _ _ _ hmn]
      · obtain ⟨extra, hex, hexmem⟩ := ih3
        refine ⟨(if centShiftCond bet acc.2 n0 then
            [⟨n0, ((lookupA acc.2 n0).map CentRecord.betweenness).getD 0,
              (lookupA bet n0).getD 0⟩]
           else []) ++ extra, ?_, ?_⟩
        · rw [hfold, hex, hfst, List.append_assoc]
        · intro a ha
          rcases List.mem_append.mp ha with h1 | h2
          · by_cases hc : centShiftCond bet acc.2 n0
            · rw [if_pos hc] at h1
              rw [List.mem_singleton.mp h1]
              exact List.mem_cons_self n0 t
            · rw [if_neg hc] at h1
              exact absurd h1 (List.not_mem_nil a)
          · exact List.mem_cons_of_mem _ (hexmem a h2)
      · intro n hn
        rw [hfold]
        rcases List.mem_cons.mp hn with rfl | hmem
        · obtain ⟨extra, hex, hexmem⟩ := ih3
          rw [hex, hfst]
          constructor
          · rintro ⟨a, ha, hnode⟩
            rcases List.mem_append.mp ha with h1 | h2
            · rcases List.mem_append.mp h1 with h0 | hpay
              · exact Or.inl ⟨a, h0, hnode⟩
              · by_cases hc : centShiftCond bet acc.2 n
                · exact Or.inr hc
                · rw [if_neg hc] at hpay
                  exact absurd hpay (List.not_mem_nil a)
            · exact absurd (hnode ▸ hexmem a h2) hn0
          · rintro (⟨a, ha, hnode⟩ | hc)
            · exact ⟨a, List.mem_append_left _ (List.mem_append_left _ ha), hnode⟩
            · refine ⟨⟨n, ((lookupA acc.2 n).map CentRecord.betweenness).getD 0,
                (lookupA bet n).getD 0⟩, ?_, rfl⟩
              refine List.mem_append_left _ (List.mem_append_right _ ?_)
              rw [if_pos hc]
              exact List.mem_singleton_self _
        · have hne : n ≠ n0 := fun hc => hn0 (hc ▸ hmem)
          rw [ih4 n hmem]
          have hcnd : centShiftCond bet (centShiftStep bet deg acc n0).2 n ↔
              centShiftCond bet acc.2 n := by
            refine centShiftCond_ext bet _ _ n ?_
            rw [hsnd, lookupA_setA_ne _ _ _ _ hne]
          constructor
          · rintro (⟨a, ha, hnode⟩ | hc)
            · rw [hfst] at ha
              rcases List.mem_append.mp ha with h0 | hpay
              · exact Or.inl ⟨a, h0, hnode⟩
              · by_cases hcc : centShiftCond bet acc.2 n0
                · rw [if_pos hcc] at hpay
                  rw [List.mem_singleton.mp hpay] at hnode
                  exact absurd hnode hne.symm
                  -- the payload's node is n0 ≠ n
                · rw [if_neg hcc] at hpay
                  exact absurd hpay (List.not_mem_nil a)
            · exact Or.inr (hcnd.mp hc)
          · rintro (⟨a, ha, hnode⟩ | hc)
            · refine Or.inl ⟨a, ?_, hnode⟩
              rw [hfst]
              exact List.mem_append_left _ ha
            · exact Or.inr (hcnd.mpr hc)

/-- C5: run on a duplicate-free node snapshot, the centrality-shift
strategy emits a `CentralityShift` alert for a node iff the node's current
betweenness (default 0) exceeds the floor 1/10, exceeds 5 times its
previously recorded betweenness, and that previous value is strictly
positive; a node with no history entry (first observation) never alerts;
and after the pass the node's history holds exactly the current
betweenness and degree values, whether or not an alert fired. -/
theorem centrality_shift_characterisation :
    ∀ (nodes : List String) (bet deg : List (String × ℚ))
      (history : List (String × CentRecord)),
      nodes.Nodup → ∀ n ∈ nodes,
      ((∃ a ∈ (analyzeCentralityShifts nodes bet deg history).1, a.node = n) ↔
          centShiftCond bet history n) ∧
      lookupA (analyzeCentralityShifts nodes bet deg history).2 n =
        some ⟨(lookupA bet n).getD 0, (lookupA deg n).getD 0⟩ ∧
      (lookupA history n = none →
        ¬ ∃ a ∈ (analyzeCentralityShifts nodes bet deg history).1, a.node = n) := by
  intro nodes bet deg history hnd n hn
  obtain ⟨h1, h2, h3, h4⟩ := centShiftStep_fold bet deg nodes ([], history) hnd
  have hdef : analyzeCentralityShifts nodes bet deg history
      = nodes.foldl (centShiftStep bet deg) ([], history) := rfl
  have hiff : (∃ a ∈ (analyzeCentralityShifts nodes bet deg history).1, a.node = n) ↔
      centShiftCond bet history n := by
    rw [hdef, h4 n hn]
    simp
  refine ⟨hiff, ?_, ?_⟩
  · rw [hdef]
    exact h1 n hn
  · intro hnone hex
    have hc := hiff.mp hex
    unfold centShiftCond at hc
    rw [hnone] at hc
    simp at hc

/-- C5 witness: the characterisation applied to a concrete two-node
snapshot in which `n1` has history and `n2` is first observed. -/
theorem centrality_shift_witness :
    ((∃ a ∈ (analyzeCentralityShifts ["n1", "n2"] betFix [] histFix).1,
        a.node = "n1") ↔ centShiftCond betFix histFix "n1") ∧
      lookupA (analyzeCentralityShifts ["n1", "n2"] betFix [] histFix).2 "n1" =
        some ⟨(lookupA betFix "n1").getD 0,
          (lookupA ([] : List (String × ℚ)) "n1").getD 0⟩ :=
  ⟨(centrality_shift_characterisation ["n1", "n2"] betFix [] histFix
      (by decide) "n1" (by decide)).1,
   (centrality_shift_characterisation ["n1", "n2"] betFix [] histFix
      (by decide) "n1" (by decide)).2.1⟩

/-! ## C7 — graph pruning -/

/-- A node incident to a surviving edge has nonzero degree there. -/
lemma degreeOf_pos_of_mem (edges : List GEdge) (e : GEdge) (ip : String)
    (he : e ∈ edges) (hip : e.u = ip ∨ e.v = ip) : degreeOf edges ip ≠ 0 := by
  unfold degreeOf
  have hmem : e ∈ edges.filter (fun e => e.u == ip || e.v == ip) := by
    rw [List.mem_filter]
    refine ⟨he, ?_⟩
    simp only [Bool.or_eq_true, beq_iff_eq]
    exact hip
  have := List.length_pos.mpr (List.ne_nil_of_mem hmem)
  omega

/-- C7: one prune pass drops exactly the edges strictly older than `ttl`
(so an edge last seen at `now - ttl - 1` goes and one last seen at
`now - ttl + 1` stays), keeps every endpoint of a surviving edge (the
edge-before-node order preserves the referential invariant), and removes a
node only when it is strictly older than `ttl` and owns no remaining
edge. -/
theorem prune_graph_characterisation :
    (∀ (g : TrafficGraph) (now ttl : ℤ) (e : GEdge), e ∈ g.edges →
        (e.last_seen = now - ttl - 1 → e ∉ (prune_graph g now ttl).edges) ∧
        (e.last_seen = now - ttl + 1 → e ∈ (prune_graph g now ttl).edges)) ∧
    (∀ (g : TrafficGraph) (now ttl : ℤ) (e : GEdge),
        e ∈ (prune_graph g now ttl).edges → now - e.last_seen ≤ ttl) ∧
    (∀ (g : TrafficGraph) (now ttl : ℤ),
        (∀ e ∈ g.edges, hasNode g.nodes e.u ∧ hasNode g.nodes e.v) →
        ∀ e ∈ (prune_graph g now ttl).edges,
          hasNode (prune_graph g now ttl).nodes e.u ∧
            hasNode (prune_graph g now ttl).nodes e.v) ∧
    (∀ (g : TrafficGraph) (now ttl : ℤ) (nd : String × GNode), nd ∈ g.nodes →
        (∃ e ∈ (prune_graph g now ttl).edges, e.u = nd.1 ∨ e.v = nd.1) →
        nd ∈ (prune_graph g now ttl).nodes) ∧
    (∀ (g : TrafficGraph) (now ttl : ℤ) (nd : String × GNode), nd ∈ g.nodes →
        nd ∉ (prune_graph g now ttl).nodes →
        now - nd.2.last_seen > ttl ∧
          degreeOf (prune_graph g now ttl).edges nd.1 = 0) := by
  have hedges : ∀ (g : TrafficGraph) (now ttl : ℤ) (e : GEdge),
      e ∈ (prune_graph g now ttl).edges ↔
        e ∈ g.edges ∧ ¬ (now - e.last_seen > ttl) := by
    intro g now ttl e
    unfold prune_graph
    rw [List.mem_filter]
    simp
  have hnodes : ∀ (g : TrafficGraph) (now ttl : ℤ) (nd : String × GNode),
      nd ∈ (prune_graph g now ttl).nodes ↔
        nd ∈ g.nodes ∧
          ¬ (now - nd.2.last_seen > ttl ∧
              degreeOf (prune_graph g now ttl).edges nd.1 = 0) := by
    intro g now ttl nd
    unfold prune_graph
    rw [List.mem_filter]
    constructor
    · rintro ⟨h1, h2⟩
      simp only [Bool.not_eq_true', Bool.and_eq_false_iff,
        decide_eq_false_iff_not] at h2
      refine ⟨h1, fun hc => ?_⟩
      rcases h2 with h | h
      · exact h hc.1
      · exact h hc.2
    · rintro ⟨h1, h2⟩
      refine ⟨h1, ?_⟩
      simp only [Bool.not_eq_true', Bool.and_eq_false_iff,
        decide_eq_false_iff_not]
      by_cases ha : now - nd.2.last_seen > ttl
      · exact Or.inr (fun hd => h2 ⟨ha, hd⟩)
      · exact Or.inl ha
  refine ⟨?_, ?_, ?_, ?_, ?_⟩
  · intro g now ttl e he
    constructor
    · intro hls hmem
      have := (hedges g now ttl e).mp hmem
      rw [hls] at this
      omega
    · intro hls
      refine (hedges g now ttl e).mpr ⟨he, ?_⟩
      rw [hls]
      omega
  · intro g now ttl e he
    have := (hedges g now ttl e).mp he
    omega
  · intro g now ttl hinv e he
    have hge := (hedges g now ttl e).mp he
    obtain ⟨hu, hv⟩ := hinv e hge.1
    constructor
    · obtain ⟨nd, hnd, hnd1⟩ := hu
      exact ⟨nd, (hnodes g now ttl nd).mpr
        ⟨hnd, fun hc => degreeOf_pos_of_mem _ e nd.1 he (Or.inl hnd1.symm) hc.2⟩, hnd1⟩
    · obtain ⟨nd, hnd, hnd1⟩ := hv
      exact ⟨nd, (hnodes g now ttl nd).mpr
        ⟨hnd, fun hc => degreeOf_pos_of_mem _ e nd.1 he (Or.inr hnd1.symm) hc.2⟩, hnd1⟩
  · intro g now ttl nd hnd ⟨e, he, hor⟩
    exact (hnodes g now ttl nd).mpr
      ⟨hnd, fun hc => degreeOf_pos_of_mem _ e nd.1 he hor hc.2⟩
  · intro g now ttl nd hnd hout
    by_contra hc
    rw [not_and_or] at hc
    refine hout ((hnodes g now ttl nd).mpr ⟨hnd, fun hb => ?_⟩)
    rcases hc with h1 | h2
    · exact h1 hb.1
    · exact h2 hb.2

/-- C7 witness: on the concrete two-node graph whose edge was last seen at
time 100, pruning at `now = 200` keeps the edge for `ttl = 101`
(`last_seen = now - ttl + 1`) and drops it for `ttl = 99`
(`last_seen = now - ttl - 1`). -/
theorem prune_graph_witness :
    ((⟨"A", "B", 2, 100⟩ : GEdge) ∈ (prune_graph graphFix 200 101).edges) ∧
      ((⟨"A", "B", 2, 100⟩ : GEdge) ∉ (prune_graph graphFix 200 99).edges) :=
  ⟨(prune_graph_characterisation.1 graphFix 200 101 ⟨"A", "B", 2, 100⟩
      (by decide)).2 (by decide),
   (prune_graph_characterisation.1 graphFix 200 99 ⟨"A", "B", 2, 100⟩
      (by decide)).1 (by decide)⟩

/-! ## C8 — graph updates -/

/-- Bumping weight and timestamp does not change which pair an edge
joins. -/
lemma joins_bump (e : GEdge) (a b : String) (w : Nat) (t : ℤ) :
    ({ e with weight := w, last_seen := t } : GEdge).joins a b = e.joins a b := rfl

/-- The unordered-pair test is symmetric. -/
lemma joins_symm (e : GEdge) (a b : String) : e.joins a b = e.joins b a := by
  unfold GEdge.joins
  exact Bool.or_comm _ _

/-- Bumping the pair's edge bumps the first match the pair lookup sees. -/
lemma find?_bumpEdge (edges : List GEdge) (a b : String) (t : ℤ) :
    (bumpEdge edges a b t).find? (fun e => e.joins a b)
      = (edges.find? (fun e => e.joins a b)).map
          (fun e => { e with weight := e.weight + 1, last_seen := t }) := by
  induction edges with
  | nil => rfl
  | cons e es ih =>
      by_cases h : e.joins a b = true
      · rw [bumpEdge, if_pos h, List.find?_cons, List.find?_cons]
        have h' : ({ e with weight := e.weight + 1, last_seen := t } : GEdge).joins
            a b = true := h
        rw [h, h']
        rfl
      · rw [bumpEdge, if_neg h, List.find?_cons, List.find?_cons]
        rw [Bool.not_eq_true] at h
        rw [h, ih]

/-- Bumping never changes how many edges join the pair. -/
lemma filter_length_bumpEdge (edges : List GEdge) (a b : String) (t : ℤ) :
    ((bumpEdge edges a b t).filter (fun e => e.joins a b)).length
      = (edges.filter (fun e => e.joins a b)).length := by
  induction edges with
  | nil => rfl
  | cons e es ih =>
      by_cases h : e.joins a b = true
      · have h' : ({ e with weight := e.weight + 1, last_seen := t } : GEdge).joins
            a b = true := h
        rw [bumpEdge, if_pos h, List.filter_cons, List.filter_cons]
        rw [if_pos h', if_pos h]
        simp [ih]
      · rw [bumpEdge, if_neg h, List.filter_cons, List.filter_cons]
        rw [if_neg h, if_neg h, ih]

/-- The order of the two endpoints does not change the bump pass. -/
lemma bumpEdge_symm (edges : List GEdge) (a b : String) (t : ℤ) :
    bumpEdge edges b a t = bumpEdge edges a b t := by
  induction edges with
  | nil => rfl
  | cons e es ih =>
      rw [bumpEdge, bumpEdge, joins_symm e b a, ih]

/-- Reading the upserted node back: bumped when present, fresh when
absent. -/
lemma lookupA_upsertNode_self (nodes : List (String × GNode)) (ip : String)
    (t : ℤ) :
    lookupA (upsertNode nodes ip t) ip =
      some (match lookupA nodes ip with
        | some nd => { nd with last_seen := t, packet_count := nd.packet_count + 1 }
        | none => ⟨t, 1, t⟩) := by
  induction nodes with
  | nil => simp [upsertNode, lookupA]
  | cons nd rest ih =>
      by_cases h : nd.1 = ip
      · simp [upsertNode, h, lookupA]
      · simp [upsertNode, h, lookupA, ih]

/-- Upserting one node leaves every other node's binding unchanged. -/
lemma lookupA_upsertNode_ne (nodes : List (String × GNode)) (ip ip' : String)
    (t : ℤ) (h : ip' ≠ ip) :
    lookupA (upsertNode nodes ip t) ip' = lookupA nodes ip' := by
  induction nodes with
  | nil => simp [upsertNode, lookupA, Ne.symm h]
  | cons nd rest ih =>
      by_cases hk : nd.1 = ip
      · simp [upsertNode, hk, lookupA, Ne.symm h]
      · simp only [upsertNode, hk, ite_false, lookupA]
        by_cases hk' : nd.1 = ip' <;> simp [hk', ih]

/-- C8: for distinct hosts `A ≠ B`, one update — in either argument
order — adds exactly 1 to the weight of the single undirected edge of the
pair (1 when the edge is created); starting from a graph with at most one
stored edge for the pair, the updated graph has exactly one (no duplicate
is ever created); and both endpoint nodes are upserted: bumped
(`packet_count + 1`, `last_seen := t`) when present, created as
`⟨t, 1, t⟩` when absent. -/
theorem update_graph_characterisation :
    ∀ (g : TrafficGraph) (A B : String) (t : ℤ), A ≠ B →
      (pairWeight (update_graph g A B t) A B = pairWeight g A B + 1 ∧
        pairWeight (update_graph g B A t) A B = pairWeight g A B + 1) ∧
      (pairCount g A B ≤ 1 →
        pairCount (update_graph g A B t) A B = 1 ∧
        pairCount (update_graph g B A t) A B = 1) ∧
      (lookupA (update_graph g A B t).nodes A =
        some (match lookupA g.nodes A with
          | some nd => { nd with last_seen := t, packet_count := nd.packet_count + 1 }
          | none => ⟨t, 1, t⟩) ∧
       lookupA (update_graph g A B t).nodes B =
        some (match lookupA g.nodes B with
          | some nd => { nd with last_seen := t, packet_count := nd.packet_count + 1 }
          | none => ⟨t, 1, t⟩)) := by
  intro g A B t hAB
  have hjba : (fun e : GEdge => e.joins B A) = (fun e : GEdge => e.joins A B) :=
    funext (fun e => (joins_symm e A B).symm)
  have hnewAB : (⟨A, B, 1, t⟩ : GEdge).joins A B = true := by
    simp [GEdge.joins]
  have hnewBA : (⟨B, A, 1, t⟩ : GEdge).joins A B = true := by
    simp [GEdge.joins]
  have hedgesAB : (update_graph g A B t).edges =
      if g.edges.any (fun e => e.joins A B) then bumpEdge g.edges A B t
      else g.edges ++ [⟨A, B, 1, t⟩] := rfl
  have hedgesBA : (update_graph g B A t).edges =
      if g.edges.any (fun e => e.joins A B) then bumpEdge g.edges A B t
      else g.edges ++ [⟨B, A, 1, t⟩] := by
    show (if g.edges.any (fun e => e.joins B A) then bumpEdge g.edges B A t
      else g.edges ++ [⟨B, A, 1, t⟩]) = _
    rw [hjba, bumpEdge_symm]
  -- weight and count of either resulting edge list
  have hkey : ∀ extra : GEdge, extra.joins A B = true → extra.weight = 1 →
      (((if g.edges.any (fun e => e.joins A B) then bumpEdge g.edges A B t
          else g.edges ++ [extra]).find?
            (fun e => e.joins A B)).map GEdge.weight).getD 0
        = ((g.edges.find? (fun e => e.joins A B)).map GEdge.weight).getD 0 + 1 ∧
      ((g.edges.filter (fun e => e.joins A B)).length ≤ 1 →
        ((if g.edges.any (fun e => e.joins A B) then bumpEdge g.edges A B t
          else g.edges ++ [extra]).filter
            (fun e => e.joins A B)).length = 1) := by
    intro extra hex hw
    by_cases hany : g.edges.any (fun e => e.joins A B) = true
    · obtain ⟨e0, he0mem, he0⟩ := List.any_eq_true.mp hany
      have hsome : (g.edges.find? (fun e => e.joins A B)).isSome :=
        List.find?_isSome.mpr ⟨e0, he0mem, he0⟩
      obtain ⟨e1, he1⟩ := Option.isSome_iff_exists.mp hsome
      constructor
      · rw [if_pos hany, find?_bumpEdge, he1]
        rfl
      · intro _
        rw [if_pos hany, filter_length_bumpEdge]
        have hmem : e0 ∈ g.edges.filter (fun e => e.joins A B) :=
          List.mem_filter.mpr ⟨he0mem, he0⟩
        have h1 := List.length_pos.mpr (List.ne_nil_of_mem hmem)
        omega
    · have hall : ∀ x ∈ g.edges, ¬ x.joins A B = true := by
        intro x hx hpx
        exact hany (List.any_eq_true.mpr ⟨x, hx, hpx⟩)
      have hnone : g.edges.find? (fun e => e.joins A B) = none :=
        List.find?_eq_none.mpr hall
      constructor
      · rw [if_neg hany, List.find?_append, hnone, Option.none_or,
          List.find?_cons, hex]
        simp [hw]
      · intro _
        rw [if_neg hany, List.filter_append]
        have hfl : g.edges.filter (fun e => e.joins A B) = [] := by
          rw [List.filter_eq_nil_iff]
          exact hall
        rw [hfl]
        simp [hex]
  obtain ⟨hkAB1, hkAB2⟩ := hkey ⟨A, B, 1, t⟩ hnewAB rfl
  obtain ⟨hkBA1, hkBA2⟩ := hkey ⟨B, A, 1, t⟩ hnewBA rfl
  refine ⟨⟨?_, ?_⟩, fun hle => ⟨?_, ?_⟩, ?_, ?_⟩
  · unfold pairWeight pairEdge
    rw [hedgesAB]
    exact hkAB1
  · unfold pairWeight pairEdge
    rw [hedgesBA]
    exact hkBA1
  · unfold pairCount at hle ⊢
    rw [hedgesAB]
    exact hkAB2 hle
  · unfold pairCount at hle ⊢
    rw [hedgesBA]
    exact hkBA2 hle
  · show lookupA (upsertNode (upsertNode g.nodes A t) B t) A = _
    rw [lookupA_upsertNode_ne _ _ _ _ hAB, lookupA_upsertNode_self]
  · show lookupA (upsertNode (upsertNode g.nodes A t) B t) B = _
    rw [lookupA_upsertNode_self, lookupA_upsertNode_ne _ _ _ _ (Ne.symm hAB)]

/-- C8 witness: updating the concrete two-node graph (edge weight 2) on
the pair `(A, B)` raises the pair's weight to 3. -/
theorem update_graph_witness :
    "A" ≠ "B" ∧
      pairWeight (update_graph graphFix "A" "B" 7) "A" "B" =
        pairWeight graphFix "A" "B" + 1 :=
  ⟨by decide,
   ((update_graph_characterisation graphFix "A" "B" 7 (by decide)).1).1⟩

/-! ## C10 — the per-flow bookkeeping invariant -/

/-- A fresh flow satisfies the strengthened invariant. -/
lemma flowWF_mk0 (k : FlowKey) (bd : Bool) : flowWF (Flow.mk0 k bd) := by
  simp [flowWF, flowWellFormed, Flow.mk0, TcpFlags.zero]

/-- One `add_packet` call preserves the strengthened invariant. -/
lemma flowWF_add (f : Flow) (p : Packet) (ts : Option ℤ) (h : flowWF f) :
    flowWF (f.add_packet p ts) := by
  obtain ⟨⟨h1, h2, h3, hfin, hsyn, hrst, hpsh, hack, hurg, hece, hcwr⟩, hlast⟩ := h
  unfold flowWF flowWellFormed Flow.add_packet
  by_cases hip : p.hasIP = true
  · rw [if_neg (by simp [hip])]
    rcases hpl : p.layer with ⟨sp, dp, fl⟩ | ⟨sp, dp⟩ | _ | pr <;>
      rcases hlt : f.last_time with _ | lt
    all_goals try have hp0 : f.packets = 0 := hlast.mp hlt
    all_goals try have hp1 : ¬ f.packets = 0 :=
      fun hc => Option.noConfusion ((hlast.mpr hc).symm.trans hlt)
    all_goals simp only [hpl, hlt]
    all_goals try dsimp only [TcpFlags.bump]
    all_goals refine ⟨⟨?_, ?_, ?_, ?_, ?_, ?_, ?_, ?_, ?_, ?_, ?_⟩, ?_⟩
    all_goals try simp only [List.length_append, List.length_cons,
      List.length_nil, List.sum_append, List.sum_cons, List.sum_nil]
    all_goals first
      | (split_ifs <;> omega)
      | omega
      | simp
  · rw [if_pos (by simp [hip])]
    exact ⟨⟨h1, h2, h3, hfin, hsyn, hrst, hpsh, hack, hurg, hece, hcwr⟩, hlast⟩

/-- C10: under any sequence of `add_packet` calls starting from a fresh
flow, the packet count equals the length of the size list, the byte total
equals its sum, the inter-arrival list is one shorter than the packet
count (0 for an empty flow), and every TCP flag counter is bounded by the
packet count; and a packet with no IP layer leaves the flow completely
unchanged. -/
theorem flow_invariant_add_packet :
    (∀ (ps : List (Packet × Option ℤ)) (k : FlowKey) (bd : Bool),
        flowWellFormed
          (ps.foldl (fun f pt => f.add_packet pt.1 pt.2) (Flow.mk0 k bd))) ∧
      ∀ (f : Flow) (p : Packet) (ts : Option ℤ), p.hasIP = false →
        f.add_packet p ts = f := by
  constructor
  · intro ps k bd
    have hfold : ∀ (qs : List (Packet × Option ℤ)) (f : Flow), flowWF f →
        flowWF (qs.foldl (fun f pt => f.add_packet pt.1 pt.2) f) := by
      intro qs
      induction qs with
      | nil => exact fun f h => h
      | cons pt rest ih => exact fun f h => ih _ (flowWF_add f pt.1 pt.2 h)
    exact (hfold ps _ (flowWF_mk0 k bd)).1
  · intro f p ts hip
    unfold Flow.add_packet
    rw [if_pos (by simp [hip])]

/-- C10 witness: the invariant holds after one concrete SYN packet, and a
concrete packet without an IP layer is a no-op. -/
theorem flow_invariant_witness :
    flowWellFormed ([(synAB, (none : Option ℤ))].foldl
        (fun f pt => f.add_packet pt.1 pt.2) (Flow.mk0 keyAB true)) ∧
      (Flow.mk0 keyAB true).add_packet pktNoIP none = Flow.mk0 keyAB true :=
  ⟨flow_invariant_add_packet.1 [(synAB, none)] keyAB true,
   flow_invariant_add_packet.2 (Flow.mk0 keyAB true) pktNoIP none rfl⟩

/-! ## C4 — feature-extraction output keys -/

/-- Association-list lookup distributes over append via `Option.or`. -/
lemma lookupA_append {β : Type} (l1 l2 : List (String × β)) (k : String) :
    lookupA (l1 ++ l2) k = (lookupA l1 k).or (lookupA l2 k) := by
  induction l1 with
  | nil => simp [lookupA]
  | cons kv rest ih =>
      by_cases h : kv.1 = k <;> simp [lookupA, h, ih]

/-- Lookup facts about the basic-statistics section. -/
lemma baseFeats_lookup (flow : FlowRec) (d : ℚ) :
    lookupA (baseFeats flow d) "duration" = some d ∧
    (lookupA (baseFeats flow d) "bytes_per_second").isSome ∧
    (lookupA (baseFeats flow d) "packets_per_second").isSome ∧
    lookupA (baseFeats flow d) "bytes_per_packet" =
      some (if flow.packets > 0 then (flow.bytes : ℚ) / (flow.packets : ℚ) else 0) ∧
    lookupA (baseFeats flow d) "syn_ratio" = none ∧
    lookupA (baseFeats flow d) "min_packet_size" = none ∧
    lookupA (baseFeats flow d) "min_iat" = none := by
  unfold baseFeats
  by_cases h1 : d > 0 <;> by_cases h2 : flow.packets > 0 <;>
    simp [lookupA_append, lookupA, h1, h2]

/-- Lookup facts about the flag section: the ratio keys exist exactly when
the record carries flags and has packets. -/
lemma flagFeats_lookup (flow : FlowRec) :
    ((lookupA (flagFeats flow) "syn_ratio").isSome ↔
      flow.tcp_flags.isSome ∧ 0 < flow.packets) ∧
    lookupA (flagFeats flow) "min_packet_size" = none ∧
    lookupA (flagFeats flow) "min_iat" = none := by
  unfold flagFeats
  rcases htf : flow.tcp_flags with _ | tf <;> by_cases h2 : flow.packets > 0 <;>
    simp [lookupA_append, lookupA, htf, h2]

/-- The port section carries none of the rate/statistics keys. -/
lemma portFeats_lookup_none (flow : FlowRec) :
    lookupA (portFeats flow) "syn_ratio" = none ∧
    lookupA (portFeats flow) "min_packet_size" = none ∧
    lookupA (portFeats flow) "min_iat" = none := by
  unfold portFeats
  simp [lookupA]

/-- Lookup facts about the packet-size statistics section. -/
lemma sizeFeats_lookup (sq : ℚ → ℚ) (flow : FlowRec) :
    ((lookupA (sizeFeats sq flow) "min_packet_size").isSome ↔
      ∃ l, flow.packet_sizes = some l ∧ l ≠ []) ∧
    lookupA (sizeFeats sq flow) "min_iat" = none ∧
    lookupA (sizeFeats sq flow) "syn_ratio" = none := by
  unfold sizeFeats
  rcases hps : flow.packet_sizes with _ | sizes
  · simp [lookupA, hps]
  · rcases sizes with _ | ⟨s0, srest⟩ <;> simp [lookupA, statBlock, hps]

/-- Lookup facts about the inter-arrival statistics section. -/
lemma iatFeats_lookup (sq : ℚ → ℚ) (flow : FlowRec) :
    ((lookupA (iatFeats sq flow) "min_iat").isSome ↔
      ∃ l, flow.inter_arrival_times = some l ∧ l ≠ []) ∧
    lookupA (iatFeats sq flow) "min_packet_size" = none ∧
    lookupA (iatFeats sq flow) "syn_ratio" = none := by
  unfold iatFeats
  rcases hia : flow.inter_arrival_times with _ | iat
  · simp [lookupA, hia]
  · rcases iat with _ | ⟨i0, irest⟩ <;> simp [lookupA, statBlock, hia]

/-- The state section carries none of the rate/statistics keys. -/
lemma stateFeats_lookup_none (flow : FlowRec) :
    lookupA (stateFeats flow) "syn_ratio" = none ∧
    lookupA (stateFeats flow) "min_packet_size" = none ∧
    lookupA (stateFeats flow) "min_iat" = none := by
  unfold stateFeats
  rcases flow.state with _ | s <;> simp [lookupA]

/-- C4 counterexample: on a zero-packet flow record (timestamps present,
flag counters present), the extractor's output has no `syn_ratio` key and
no `min_packet_size` key at all — the claimed always-present-as-0 ratio
and statistics features are omitted, not set to 0. -/
theorem extract_features_zero_packet_missing_keys :
    lookupA (extract_flow_features id flowRec0) "syn_ratio" = none ∧
      lookupA (extract_flow_features id flowRec0) "min_packet_size" = none := by
  have hdef : extract_flow_features id flowRec0 =
      baseFeats flowRec0 ((((0 : ℤ) : ℚ) - ((0 : ℤ) : ℚ)) / 1000000)
        ++ flagFeats flowRec0 ++ portFeats flowRec0
        ++ sizeFeats id flowRec0 ++ iatFeats id flowRec0
        ++ stateFeats flowRec0 := rfl
  obtain ⟨-, -, -, -, hb5, hb6, -⟩ :=
    baseFeats_lookup flowRec0 ((((0 : ℤ) : ℚ) - ((0 : ℤ) : ℚ)) / 1000000)
  obtain ⟨hf1, hf2, -⟩ := flagFeats_lookup flowRec0
  obtain ⟨hp1, hp2, -⟩ := portFeats_lookup_none flowRec0
  obtain ⟨hs1, -, hs3⟩ := sizeFeats_lookup id flowRec0
  obtain ⟨-, hi2, hi3⟩ := iatFeats_lookup id flowRec0
  obtain ⟨ht1, ht2, -⟩ := stateFeats_lookup_none flowRec0
  have hfnone : lookupA (flagFeats flowRec0) "syn_ratio" = none := by
    rw [← Option.not_isSome_iff_eq_none, hf1]
    simp [flowRec0]
  have hsnone : lookupA (sizeFeats id flowRec0) "min_packet_size" = none := by
    rw [← Option.not_isSome_iff_eq_none, hs1]
    simp [flowRec0]
  rw [hdef]
  constructor
  · simp only [lookupA_append, hb5, hfnone, hp1, hs3, hi3, ht1,
      Option.none_or, Option.or_none]
  · simp only [lookupA_append, hb6, hf2, hp2, hsnone, hi2, ht2,
      Option.none_or, Option.or_none]

/-- C4 (amended): when both timestamps are present, the output always
contains `duration` (with the computed value), `bytes_per_second`,
`packets_per_second` and `bytes_per_packet` (0 when `packets = 0`); but
the TCP flag-ratio keys are present iff the record has a `tcp_flags` entry
and `packets > 0`, and the size/inter-arrival statistics keys are present
iff the corresponding sample list is present and nonempty (so they are
omitted, not 0, for an empty flow).  A record whose `start_time` or
`end_time` is `None` makes the extractor abort on the first subtraction
and return the empty mapping. -/
theorem extract_features_key_characterisation :
    (∀ (sq : ℚ → ℚ) (flow : FlowRec) (st et : ℤ),
      flow.start_time = some st → flow.end_time = some et →
      lookupA (extract_flow_features sq flow) "duration" =
          some (((et : ℚ) - (st : ℚ)) / 1000000) ∧
      (lookupA (extract_flow_features sq flow) "bytes_per_second").isSome ∧
      (lookupA (extract_flow_features sq flow) "packets_per_second").isSome ∧
      (flow.packets = 0 →
        lookupA (extract_flow_features sq flow) "bytes_per_packet" = some 0) ∧
      ((lookupA (extract_flow_features sq flow) "syn_ratio").isSome ↔
        flow.tcp_flags.isSome ∧ 0 < flow.packets) ∧
      ((lookupA (extract_flow_features sq flow) "min_packet_size").isSome ↔
        ∃ l, flow.packet_sizes = some l ∧ l ≠ []) ∧
      ((lookupA (extract_flow_features sq flow) "min_iat").isSome ↔
        ∃ l, flow.inter_arrival_times = some l ∧ l ≠ [])) ∧
    ∀ (sq : ℚ → ℚ) (flow : FlowRec),
      flow.start_time = none ∨ flow.end_time = none →
      extract_flow_features sq flow = [] := by
  constructor
  · intro sq flow st et hst het
    have hdef : extract_flow_features sq flow =
        baseFeats flow (((et : ℚ) - (st : ℚ)) / 1000000)
          ++ flagFeats flow ++ portFeats flow
          ++ sizeFeats sq flow ++ iatFeats sq flow ++ stateFeats flow := by
      unfold extract_flow_features
      rw [hst, het]
    obtain ⟨hb1, hb2, hb3, hb4, hb5, hb6, hb7⟩ :=
      baseFeats_lookup flow (((et : ℚ) - (st : ℚ)) / 1000000)
    obtain ⟨hf1, hf2, hf3⟩ := flagFeats_lookup flow
    obtain ⟨hp1, hp2, hp3⟩ := portFeats_lookup_none flow
    obtain ⟨hs1, hs2, hs3⟩ := sizeFeats_lookup sq flow
    obtain ⟨hi1, hi2, hi3⟩ := iatFeats_lookup sq flow
    obtain ⟨ht1, ht2, ht3⟩ := stateFeats_lookup_none flow
    rw [hdef]
    refine ⟨?_, ?_, ?_, ?_, ?_, ?_, ?_⟩
    · simp only [lookupA_append, hb1]
      rfl
    · simp only [lookupA_append, Option.isSome_or, hb2, Bool.true_or]
    · simp only [lookupA_append, Option.isSome_or, hb3, Bool.true_or]
    · intro hp0
      simp only [lookupA_append, hb4]
      simp [Option.or, hp0]
    · simp only [lookupA_append, hb5, Option.none_or, hp1, hs3, hi3, ht1,
        Option.or_none]
      exact hf1
    · simp only [lookupA_append, hb6, Option.none_or, hf2, hp2, hi2, ht2,
        Option.or_none]
      exact hs1
    · simp only [lookupA_append, hb7, Option.none_or, hf3, hp3, hs2, ht3,
        Option.or_none]
      exact hi1
  · intro sq flow h
    unfold extract_flow_features
    rcases h with h | h
    · rw [h]
    · rw [h]
      rcases flow.start_time with _ | st <;> rfl

/-- C4 witness: the amended characterisation applied to the concrete
zero-packet record (flag ratios absent despite `tcp_flags` being present,
because `packets = 0`). -/
theorem extract_features_witness :
    flowRec0.start_time = some 0 ∧
      ((lookupA (extract_flow_features id flowRec0) "syn_ratio").isSome ↔
        flowRec0.tcp_flags.isSome ∧ 0 < flowRec0.packets) :=
  ⟨rfl, (extract_features_key_characterisation.1 id flowRec0 0 0
    rfl rfl).2.2.2.2.1⟩

/-! ## C1 and C3 — immediate flow termination in `process_packet` -/

/-- Unfolding the table lookup one binding at a time. -/
lemma lookupFlow_cons (kv : FlowKey × Flow) (rest : List (FlowKey × Flow))
    (k : FlowKey) :
    lookupFlow (kv :: rest) k =
      if kv.1 = k then some kv.2 else lookupFlow rest k := by
  by_cases h : kv.1 = k <;> simp [lookupFlow, List.find?_cons, h]

/-- Reading the flow table back at a key just written. -/
lemma lookupFlow_setFlow_self (l : List (FlowKey × Flow)) (k : FlowKey) (f : Flow) :
    lookupFlow (setFlow l k f) k = some f := by
  induction l with
  | nil => simp [setFlow, lookupFlow_cons]
  | cons kv rest ih =>
      by_cases h : kv.1 = k
      · simp [setFlow, h, lookupFlow_cons]
      · simp [setFlow, h, lookupFlow_cons, ih]

/-- Writing one key leaves other keys' flows unchanged. -/
lemma lookupFlow_setFlow_ne (l : List (FlowKey × Flow)) (k k' : FlowKey) (f : Flow)
    (h : k' ≠ k) : lookupFlow (setFlow l k f) k' = lookupFlow l k' := by
  induction l with
  | nil => simp [setFlow, lookupFlow_cons, Ne.symm h]
  | cons kv rest ih =>
      by_cases hk : kv.1 = k
      · simp [setFlow, hk, lookupFlow_cons, Ne.symm h]
      · by_cases hk' : kv.1 = k' <;>
          simp [setFlow, hk, hk', h, lookupFlow_cons, ih]

/-- A key that is absent cannot be popped: the table is untouched. -/
lemma popFlow_eq_none (l : List (FlowKey × Flow)) (k : FlowKey)
    (h : lookupFlow l k = none) : popFlow l k = (none, l) := by
  induction l with
  | nil => rfl
  | cons kv rest ih =>
      by_cases hk : kv.1 = k
      · exfalso
        rw [lookupFlow_cons, if_pos hk] at h
        exact Option.noConfusion h
      · have h' : lookupFlow rest k = none := by
          rw [lookupFlow_cons, if_neg hk] at h
          exact h
        simp [popFlow, hk, ih h']

/-- Popping the key just written returns the written flow and behaves on
the remainder like popping the original table. -/
lemma popFlow_setFlow (l : List (FlowKey × Flow)) (k : FlowKey) (f : Flow) :
    popFlow (setFlow l k f) k = (some f, (popFlow l k).2) := by
  induction l with
  | nil => simp [setFlow, popFlow]
  | cons kv rest ih =>
      by_cases h : kv.1 = k
      · simp [setFlow, h, popFlow]
      · simp [setFlow, h, popFlow, ih]

/-- A key is absent from a table without that key in its key list. -/
lemma lookupFlow_eq_none_of_not_mem (l : List (FlowKey × Flow)) (k : FlowKey)
    (h : k ∉ l.map Prod.fst) : lookupFlow l k = none := by
  induction l with
  | nil => rfl
  | cons kv rest ih =>
      have h1 : kv.1 ≠ k := fun hc => h (by simp [hc])
      have h2 : k ∉ rest.map Prod.fst := fun hc => h (by simp [hc])
      rw [lookupFlow_cons, if_neg h1]
      exact ih h2

/-- After popping a key from a duplicate-free table, the key is gone. -/
lemma lookupFlow_popFlow_snd (l : List (FlowKey × Flow)) (k : FlowKey)
    (hnd : (l.map Prod.fst).Nodup) : lookupFlow (popFlow l k).2 k = none := by
  induction l with
  | nil => rfl
  | cons kv rest ih =>
      rw [List.map_cons, List.nodup_cons] at hnd
      by_cases h : kv.1 = k
      · simp only [popFlow, h, ite_true]
        exact lookupFlow_eq_none_of_not_mem rest k (h ▸ hnd.1)
      · simp only [popFlow, h, ite_false]
        rw [lookupFlow_cons, if_neg h]
        exact ih hnd.2

/-- `add_packet` never touches the expiry flag. -/
lemma add_packet_is_expired (f : Flow) (p : Packet) (ts : Option ℤ) :
    (f.add_packet p ts).is_expired = f.is_expired := by
  unfold Flow.add_packet
  by_cases hip : p.hasIP = true
  · rw [if_neg (by simp [hip])]
    rcases hpl : p.layer with ⟨sp, dp, fl⟩ | ⟨sp, dp⟩ | _ | pr <;> simp [hpl]
  · rw [if_pos (by simp [hip])]

/-- `popExpire` on a table whose key was just written: the written flow
comes back expired with the packet timestamp, the key is removed, and the
flow is recorded in `expired_flows` exactly once. -/
lemma popExpire_setFlow (b : FlowBuilder) (l : List (FlowKey × Flow))
    (k : FlowKey) (f' : Flow) (ts now : ℤ) (hb : b.flows = setFlow l k f')
    (hnd : (l.map Prod.fst).Nodup) :
    (b.popExpire k ts now).1 = some (f'.expire (some ts) now) ∧
      lookupFlow (b.popExpire k ts now).2.flows k = none ∧
      (b.popExpire k ts now).2.expired_flows
        = b.expired_flows ++ [f'.expire (some ts) now] := by
  unfold FlowBuilder.popExpire
  rw [hb, popFlow_setFlow]
  exact ⟨rfl, lookupFlow_popFlow_snd l k hnd, rfl⟩

/-- `popExpire` on an absent key is a no-op returning `none`. -/
lemma popExpire_absent (b : FlowBuilder) (k : FlowKey) (ts now : ℤ)
    (h : lookupFlow b.flows k = none) : b.popExpire k ts now = (none, b) := by
  unfold FlowBuilder.popExpire
  rw [popFlow_eq_none b.flows k h]

/-- Reduction of `process_packet` for a TCP packet routed to the flow
stored under its forward key, with the opportunistic sweep idle: the flow
is updated in place and only the termination check remains. -/
lemma process_packet_fwd (b : FlowBuilder) (p : Packet) (now : ℤ)
    (sp dp flags : Nat) (f : Flow)
    (hip : p.hasIP = true)
    (hlay : p.layer = PktLayer.tcp sp dp flags)
    (hsweep : ¬ (now - b.last_expiry_check > 1))
    (hfwd : lookupFlow b.flows ⟨p.src, p.dst, sp, dp, "TCP"⟩ = some f) :
    b.process_packet p now =
      (if flags &&& 0x04 ≠ 0 then
        ({ b with packets_processed := b.packets_processed + 1,
                  flows := setFlow b.flows ⟨p.src, p.dst, sp, dp, "TCP"⟩
                    (f.add_packet p (some p.time)) } : FlowBuilder).popExpire
          ⟨p.src, p.dst, sp, dp, "TCP"⟩ p.time now
      else if flags &&& 0x11 = 0x11 then
        if (f.add_packet p (some p.time)).state = "closed" then
          ({ b with packets_processed := b.packets_processed + 1,
                    flows := setFlow b.flows ⟨p.src, p.dst, sp, dp, "TCP"⟩
                      (f.add_packet p (some p.time)) } : FlowBuilder).popExpire
            ⟨p.src, p.dst, sp, dp, "TCP"⟩ p.time now
        else
          (none, { b with packets_processed := b.packets_processed + 1,
                          flows := setFlow b.flows ⟨p.src, p.dst, sp, dp, "TCP"⟩
                            (f.add_packet p (some p.time)) })
      else
        (none, { b with packets_processed := b.packets_processed + 1,
                        flows := setFlow b.flows ⟨p.src, p.dst, sp, dp, "TCP"⟩
                          (f.add_packet p (some p.time)) })) := by
  unfold FlowBuilder.process_packet
  rw [if_neg (by simp [hip])]
  simp [protoOf, hlay, hfwd, hsweep]

/-- Reduction of `process_packet` for a TCP packet routed (in
bidirectional mode) to the flow stored under the reversed key. -/
lemma process_packet_rev (b : FlowBuilder) (p : Packet) (now : ℤ)
    (sp dp flags : Nat) (f : Flow)
    (hip : p.hasIP = true)
    (hlay : p.layer = PktLayer.tcp sp dp flags)
    (hsweep : ¬ (now - b.last_expiry_check > 1))
    (hbid : b.bidirectional = true)
    (hfwd : lookupFlow b.flows ⟨p.src, p.dst, sp, dp, "TCP"⟩ = none)
    (hrev : lookupFlow b.flows
      (FlowKey.reversed ⟨p.src, p.dst, sp, dp, "TCP"⟩) = some f) :
    b.process_packet p now =
      (if flags &&& 0x04 ≠ 0 then
        ({ b with packets_processed := b.packets_processed + 1,
                  flows := setFlow b.flows
                    (FlowKey.reversed ⟨p.src, p.dst, sp, dp, "TCP"⟩)
                    (f.add_packet p (some p.time)) } : FlowBuilder).popExpire
          ⟨p.src, p.dst, sp, dp, "TCP"⟩ p.time now
      else if flags &&& 0x11 = 0x11 then
        if (f.add_packet p (some p.time)).state = "closed" then
          ({ b with packets_processed := b.packets_processed + 1,
                    flows := setFlow b.flows
                      (FlowKey.reversed ⟨p.src, p.dst, sp, dp, "TCP"⟩)
                      (f.add_packet p (some p.time)) } : FlowBuilder).popExpire
            ⟨p.src, p.dst, sp, dp, "TCP"⟩ p.time now
        else
          (none, { b with packets_processed := b.packets_processed + 1,
                          flows := setFlow b.flows
                            (FlowKey.reversed ⟨p.src, p.dst, sp, dp, "TCP"⟩)
                            (f.add_packet p (some p.time)) })
      else
        (none, { b with packets_processed := b.packets_processed + 1,
                        flows := setFlow b.flows
                          (FlowKey.reversed ⟨p.src, p.dst, sp, dp, "TCP"⟩)
                          (f.add_packet p (some p.time)) })) := by
  unfold FlowBuilder.process_packet
  rw [if_neg (by simp [hip])]
  simp [protoOf, hlay, hfwd, hrev, hbid, hsweep]

/-- C1 counterexample: in bidirectional mode, an RST arriving from the
responder (matching the reversed key) does not expire the flow — after
SYN A→B then RST B→A, `process_packet` returns `None` and the flow is
still live and unexpired, against the claim that an RST routed via the
reversed key removes and returns the flow. -/
theorem reverse_rst_does_not_expire :
    (runBuilder [synAB, rstBA]).1 = none ∧
      ((lookupFlow (runBuilder [synAB, rstBA]).2.flows keyAB).map Flow.is_expired)
        = some false := by decide

/-- C1 (amended): an RST packet terminates the flow only when the packet's
own forward key is the key the flow is stored under.  In that case (sweep
idle) `process_packet` removes the flow from the table, marks the updated
flow expired with the packet's timestamp as end time, records it in
`expired_flows` exactly once, and returns it — regardless of the TCP state
it was in.  An RST routed to the flow via the reversed key updates the
flow but leaves it live and does not change its expiry flag. -/
theorem rst_termination_characterisation :
    (∀ (b : FlowBuilder) (p : Packet) (now : ℤ) (sp dp flags : Nat) (f : Flow),
      (b.flows.map Prod.fst).Nodup →
      p.hasIP = true →
      p.layer = PktLayer.tcp sp dp flags →
      flags &&& 0x04 ≠ 0 →
      ¬ (now - b.last_expiry_check > 1) →
      lookupFlow b.flows ⟨p.src, p.dst, sp, dp, "TCP"⟩ = some f →
      (b.process_packet p now).1 =
          some ((f.add_packet p (some p.time)).expire (some p.time) now) ∧
        ((b.process_packet p now).1.map Flow.is_expired) = some true ∧
        ((b.process_packet p now).1.map Flow.end_time) = some (some p.time) ∧
        lookupFlow (b.process_packet p now).2.flows
          ⟨p.src, p.dst, sp, dp, "TCP"⟩ = none ∧
        (b.process_packet p now).2.expired_flows = b.expired_flows ++
          [(f.add_packet p (some p.time)).expire (some p.time) now]) ∧
    ∀ (b : FlowBuilder) (p : Packet) (now : ℤ) (sp dp flags : Nat) (f : Flow),
      p.hasIP = true →
      p.layer = PktLayer.tcp sp dp flags →
      flags &&& 0x04 ≠ 0 →
      ¬ (now - b.last_expiry_check > 1) →
      b.bidirectional = true →
      lookupFlow b.flows ⟨p.src, p.dst, sp, dp, "TCP"⟩ = none →
      lookupFlow b.flows
        (FlowKey.reversed ⟨p.src, p.dst, sp, dp, "TCP"⟩) = some f →
      (b.process_packet p now).1 = none ∧
        lookupFlow (b.process_packet p now).2.flows
          (FlowKey.reversed ⟨p.src, p.dst, sp, dp, "TCP"⟩) =
            some (f.add_packet p (some p.time)) ∧
        (f.add_packet p (some p.time)).is_expired = f.is_expired := by
  constructor
  · intro b p now sp dp flags f hnd hip hlay hrst hsweep hfwd
    rw [process_packet_fwd b p now sp dp flags f hip hlay hsweep hfwd,
      if_pos hrst]
    obtain ⟨h1, h2, h3⟩ := popExpire_setFlow
      ({ b with packets_processed := b.packets_processed + 1,
                flows := setFlow b.flows ⟨p.src, p.dst, sp, dp, "TCP"⟩
                  (f.add_packet p (some p.time)) } : FlowBuilder)
      b.flows ⟨p.src, p.dst, sp, dp, "TCP"⟩ (f.add_packet p (some p.time))
      p.time now rfl hnd
    refine ⟨h1, ?_, ?_, h2, h3⟩
    · rw [h1]
      rfl
    · rw [h1]
      rfl
  · intro b p now sp dp flags f hip hlay hrst hsweep hbid hfwd hrev
    have hne : (⟨p.src, p.dst, sp, dp, "TCP"⟩ : FlowKey) ≠
        FlowKey.reversed ⟨p.src, p.dst, sp, dp, "TCP"⟩ := by
      intro hc
      rw [hc, hrev] at hfwd
      exact Option.noConfusion hfwd
    rw [process_packet_rev b p now sp dp flags f hip hlay hsweep hbid hfwd hrev,
      if_pos hrst]
    have habs : lookupFlow
        (setFlow b.flows (FlowKey.reversed ⟨p.src, p.dst, sp, dp, "TCP"⟩)
          (f.add_packet p (some p.time)))
        ⟨p.src, p.dst, sp, dp, "TCP"⟩ = none := by
      rw [lookupFlow_setFlow_ne _ _ _ _ hne]
      exact hfwd
    rw [popExpire_absent _ _ _ _ habs]
    exact ⟨rfl, lookupFlow_setFlow_self _ _ _,
      add_packet_is_expired f p (some p.time)⟩

/-- C1 witness: the forward-key RST on the concrete SYN-opened flow is
returned expired and the flow is removed from the table. -/
theorem rst_termination_witness :
    ((builderAB.process_packet rstAB 0).1.map Flow.is_expired) = some true ∧
      lookupFlow (builderAB.process_packet rstAB 0).2.flows
        ⟨"10.0.0.1", "10.0.0.2", 1234, 80, "TCP"⟩ = none :=
  ⟨(rst_termination_characterisation.1 builderAB rstAB 0 1234 80 4 synFlow
      (by decide) rfl rfl (by decide) (by decide) (by decide)).2.1,
   (rst_termination_characterisation.1 builderAB rstAB 0 1234 80 4 synFlow
      (by decide) rfl rfl (by decide) (by decide) (by decide)).2.2.2.1⟩

/-- C3 counterexample: the canonical closing sequence SYN, SYN-ACK, ACK,
FIN-ACK, FIN-ACK, final pure ACK does not cause immediate termination —
the final ACK (flags `0x10`) fails the `flags & 0x11 == 0x11` test, so
`process_packet` returns `None` and the flow stays in the table in state
`closed`, unexpired, left to the timeout sweep. -/
theorem final_ack_does_not_terminate :
    (runBuilder closeSeq).1 = none ∧
      ((lookupFlow (runBuilder closeSeq).2.flows keyAB).map Flow.state)
        = some "closed" ∧
      ((lookupFlow (runBuilder closeSeq).2.flows keyAB).map Flow.is_expired)
        = some false := by decide

/-- C3 (amended): a packet that carries neither RST nor FIN (in particular
the final pure ACK of a close handshake) never causes immediate
termination; the FIN path terminates the flow exactly when the arriving
packet carries FIN+ACK while the flow's state (after applying the packet)
is `closed` and the packet's forward key is the stored key — then the flow
is removed, expired with the packet timestamp and returned. -/
theorem fin_close_termination_characterisation :
    (∀ (b : FlowBuilder) (p : Packet) (now : ℤ) (sp dp flags : Nat),
      p.hasIP = true →
      p.layer = PktLayer.tcp sp dp flags →
      flags &&& 0x04 = 0 → flags &&& 0x01 = 0 →
      (b.process_packet p now).1 = none) ∧
    ∀ (b : FlowBuilder) (p : Packet) (now : ℤ) (sp dp flags : Nat) (f : Flow),
      (b.flows.map Prod.fst).Nodup →
      p.hasIP = true →
      p.layer = PktLayer.tcp sp dp flags →
      flags &&& 0x04 = 0 → flags &&& 0x11 = 0x11 →
      ¬ (now - b.last_expiry_check > 1) →
      lookupFlow b.flows ⟨p.src, p.dst, sp, dp, "TCP"⟩ = some f →
      (f.add_packet p (some p.time)).state = "closed" →
      (b.process_packet p now).1 =
          some ((f.add_packet p (some p.time)).expire (some p.time) now) ∧
        ((b.process_packet p now).1.map Flow.is_expired) = some true ∧
        lookupFlow (b.process_packet p now).2.flows
          ⟨p.src, p.dst, sp, dp, "TCP"⟩ = none := by
  constructor
  · intro b p now sp dp flags hip hlay h4 h1
    have h17 : ¬ flags &&& 17 = 17 := finack_guard flags h1
    unfold FlowBuilder.process_packet
    rw [if_neg (by simp [hip])]
    simp [protoOf, hlay, h4, h17]
  · intro b p now sp dp flags f hnd hip hlay h4 h17 hsweep hfwd hclosed
    rw [process_packet_fwd b p now sp dp flags f hip hlay hsweep hfwd,
      if_neg (by simp [h4]), if_pos h17, if_pos hclosed]
    obtain ⟨h1, h2, h3⟩ := popExpire_setFlow
      ({ b with packets_processed := b.packets_processed + 1,
                flows := setFlow b.flows ⟨p.src, p.dst, sp, dp, "TCP"⟩
                  (f.add_packet p (some p.time)) } : FlowBuilder)
      b.flows ⟨p.src, p.dst, sp, dp, "TCP"⟩ (f.add_packet p (some p.time))
      p.time now rfl hnd
    refine ⟨h1, ?_, h2⟩
    rw [h1]
    rfl

/-- C3 witness: a FIN+ACK packet arriving while the concrete flow waits in
`close_wait` (so the packet moves it to `closed`) is expired, removed and
returned. -/
theorem fin_close_termination_witness :
    (builderCW.process_packet finAckAB 0).1 =
        some ((flowCW.add_packet finAckAB (some finAckAB.time)).expire
          (some finAckAB.time) 0) ∧
      lookupFlow (builderCW.process_packet finAckAB 0).2.flows
        ⟨"10.0.0.1", "10.0.0.2", 1234, 80, "TCP"⟩ = none :=
  ⟨(fin_close_termination_characterisation.2 builderCW finAckAB 0 1234 80 17
      flowCW (by decide) rfl rfl (by decide) (by decide) (by decide)
      (by decide) (by decide)).1,
   (fin_close_termination_characterisation.2 builderCW finAckAB 0 1234 80 17
      flowCW (by decide) rfl rfl (by decide) (by decide) (by decide)
      (by decide) (by decide)).2.2⟩

end NIDS
